import Mathlib

/-!
Verification development for the CodeCraft backend lesson-content pipeline
(`src/controllers/lesson.controller.js` and the stricter controller revision).

The JavaScript code is shallowly embedded: JS values are modelled by the
inductive type `JVal` (numbers as `Int`; the repository's pipeline only ever
compares against small integer literals), JS objects by association lists of
string keys, and the nondeterministic inputs of the code (`Date.now()`, the
random block-id suffix) are passed as explicit parameters.
-/

set_option maxHeartbeats 1000000

namespace CodeCraft

/-- Model of a JavaScript value as it flows through the lesson pipeline.
`undef` and `null` are kept distinct (as in JS); numbers are modelled as
integers, which is faithful for every number the pipeline produces or
compares against. -/
inductive JVal where
  | undef
  | null
  | bool (b : Bool)
  | num (n : Int)
  | str (s : String)
  | arr (xs : List JVal)
  | obj (fields : List (String × JVal))

namespace JVal

/-- JS truthiness: `undefined`, `null`, `false`, `0`, `""` are falsy, every
object and array is truthy. -/
def truthy : JVal → Bool
  | .undef => false
  | .null => false
  | .bool b => b
  | .num n => n != 0
  | .str s => s ≠ ""
  | .arr _ => true
  | .obj _ => true

/-- `typeof v === 'object'` — true for `null`, arrays and plain objects. -/
def typeofObject : JVal → Bool
  | .null => true
  | .arr _ => true
  | .obj _ => true
  | _ => false

/-- `typeof v === 'string'`. -/
def isStr : JVal → Bool
  | .str _ => true
  | _ => false

/-- `Array.isArray(v)`. -/
def isArr : JVal → Bool
  | .arr _ => true
  | _ => false

def isObjLit : JVal → Bool
  | .obj _ => true
  | _ => false

/-- The string payload of a `str` value (`""` otherwise; used only under an
`isStr` guard, mirroring a JS `typeof v === 'string'` check). -/
def asStr : JVal → String
  | .str s => s
  | _ => ""

/-- First match lookup in an association list (JS object property order). -/
def assocLookup : List (String × JVal) → String → Option JVal
  | [], _ => none
  | (k', v) :: t, k => if k' = k then some v else assocLookup t k

/-- `a.k = v` on an association list: update the first occurrence of the key
in place, else append — exactly JS property-assignment order semantics. -/
def assocSet : List (String × JVal) → String → JVal → List (String × JVal)
  | [], k, v => [(k, v)]
  | (k', w) :: t, k, v => if k' = k then (k, v) :: t else (k', w) :: assocSet t k v

/-- The index properties a JS array exposes (`a["0"]`, `a["1"]`, …), which are
also its own enumerable properties copied by an object spread. -/
def arrFields (xs : List JVal) : List (String × JVal) :=
  (List.range xs.length).zip xs |>.map fun p => (Nat.repr p.1, p.2)

/-- Property read `v[k]`, returning `none` where JS would throw a `TypeError`
(reading a property of `null`/`undefined`). -/
def objLookup : JVal → String → Option JVal
  | .obj fs, k => assocLookup fs k
  | .arr xs, k => assocLookup (arrFields xs) k
  | _, _ => none

/-- Property read `v.k` for a non-nullish receiver: missing properties (and
properties of primitives) read as `undefined`, exactly as in JS.  This also
models the optional chain `v?.k` for every `v`. -/
def jsGet (v : JVal) (k : String) : JVal :=
  ((objLookup v k).getD .undef)

/-- Property write `v.k = x` (only ever applied to objects in the pipeline). -/
def objSet : JVal → String → JVal → JVal
  | .obj fs, k, v => .obj (assocSet fs k v)
  | x, _, _ => x

/-- JS `a || b`. -/
def jsOr (a b : JVal) : JVal := if truthy a then a else b

/-- Object spread `{ ...v }`: copies an object's own enumerable properties;
spreading an array yields its index properties; spreading a primitive or
nullish value yields `{}`. -/
def jsSpread : JVal → JVal
  | .obj fs => .obj fs
  | .arr xs => .obj (arrFields xs)
  | _ => .obj []

/-- Simple model of JS `Number(str)` used by the abstract relational
comparison: optional sign followed by decimal digits (whitespace-free,
non-fractional — the only shapes the pipeline can meaningfully compare). A
string JS would parse as a non-integral or exotic number is mapped to `none`
(NaN), under which every `<`/`>` comparison is false, as in JS. -/
def strToNumOpt (s : String) : Option Int :=
  if s = "" then some 0
  else
    let (sgn, ds) : Int × List Char :=
      match s.data with
      | '-' :: t => (-1, t)
      | '+' :: t => (1, t)
      | l => (1, l)
    if ds ≠ [] ∧ ds.all Char.isDigit then
      some (sgn * (Int.ofNat ((ds.foldl (fun n c => n * 10 + (c.toNat - '0'.toNat)) 0))))
    else none

/-- Model of JS `ToNumber` as used by `<` / `>` against a numeric literal:
`none` stands for NaN.  Arrays and objects go through `ToPrimitive`; the
model keeps the cases the pipeline can reach exactly and maps the remaining
exotic coercions (multi-element arrays, nested wrappers, plain objects) to
NaN. -/
def toNumOpt : JVal → Option Int
  | .undef => none
  | .null => some 0
  | .bool b => some (if b then 1 else 0)
  | .num n => some n
  | .str s => strToNumOpt s
  | .arr [] => some 0
  | .arr [.num n] => some n
  | .arr [.null] => some 0
  | .arr _ => none
  | .obj _ => none

/-- JS `v < n` for an integer literal `n` (false on NaN). -/
def jsLtI (v : JVal) (n : Int) : Bool :=
  match toNumOpt v with
  | some x => x < n
  | none => false

/-- JS `v > n` for an integer literal `n` (false on NaN). -/
def jsGtI (v : JVal) (n : Int) : Bool :=
  match toNumOpt v with
  | some x => x > n
  | none => false

/-- Model of JS string conversion `${v}` for the values the renderer
interpolates (array elements join with `","`, nullish elements joining as
`""`; plain objects print as `[object Object]`). -/
def jsToString : JVal → String
  | .undef => "undefined"
  | .null => "null"
  | .bool b => if b then "true" else "false"
  | .num n => toString n
  | .str s => s
  | .obj _ => "[object Object]"
  | .arr xs => String.intercalate "," (xs.map fun v =>
      match v with
      | .undef => ""
      | .null => ""
      | .bool b => if b then "true" else "false"
      | .num n => toString n
      | .str s => s
      | .obj _ => "[object Object]"
      | .arr _ => "")

end JVal

open JVal

/-- Does `sub` occur as a contiguous run of `l`? -/
def listHasRun (sub : List Char) : List Char → Bool
  | [] => sub.isEmpty
  | c :: rest => sub.isPrefixOf (c :: rest) || listHasRun sub rest

/-- JS `String.prototype.includes`. -/
def strContains (s sub : String) : Bool := listHasRun sub.data s.data

/-- JS `String.prototype.toLowerCase` (and WHATWG ASCII lower-casing),
defined over the character list so that it evaluates in the kernel. -/
def lowerStr (s : String) : String := String.mk (s.data.map Char.toLower)

/-- JS `String.prototype.startsWith`. -/
def strStartsWith (s p : String) : Bool := p.data.isPrefixOf s.data

/-- `endsWith`, used only by the spec-side predicate. -/
def strEndsWith (s p : String) : Bool := p.data.isSuffixOf s.data

/-! ## Model of the WHATWG `new URL(...)` platform builtin

The controller calls the host platform's `URL` constructor only to (a) decide
whether a string parses as a URL and (b) read `.hostname`.  The parser below
models that builtin (it is not repository code): input stripping, scheme
parsing, authority/host extraction with userinfo and port removal, and opaque
paths for non-special schemes.  Simplifications (documented here, none
reachable by the repository's inputs of interest): hosts are not
percent-decoded or IDNA-mapped, IPv6 bracket syntax is not modelled, and
`file:` URLs take the generic non-special branch. -/

structure URLRec where
  scheme : String
  host : String
  path : String
deriving Repr, DecidableEq

/-- WHATWG input preprocessing: remove every ASCII tab/newline, trim leading
and trailing C0 controls and spaces. -/
def urlStrip (s : String) : List Char :=
  let l := s.data.filter fun c => c ≠ '\t' ∧ c ≠ '\n' ∧ c ≠ '\r'
  let l := l.dropWhile fun c => c.toNat ≤ 32
  (l.reverse.dropWhile fun c => c.toNat ≤ 32).reverse

def schemeChar (c : Char) : Bool := c.isAlphanum || c = '+' || c = '-' || c = '.'

/-- Split `scheme:rest`; the first character must be an ASCII letter. -/
def splitScheme (l : List Char) : Option (String × List Char) :=
  match l with
  | [] => none
  | c :: rest => if c.isAlpha then go [c] rest else none
where
  go (acc : List Char) : List Char → Option (String × List Char)
    | [] => none
    | c :: rest =>
      if c = ':' then some (lowerStr (String.mk acc.reverse), rest)
      else if schemeChar c then go (c :: acc) rest
      else none

/-- Forbidden host code points (WHATWG host parser failure set). -/
def forbiddenHostChar (c : Char) : Bool :=
  c = ' ' || c = '#' || c = '/' || c = ':' || c = '<' || c = '>' ||
  c = '?' || c = '@' || c = '[' || c = '\\' || c = ']' || c = '^' || c = '|' || c.toNat = 0

/-- Parse an authority component into a hostname: drop userinfo (after the
last `@`) and the port (after `:`, which must be numeric). -/
def parseHostIn (allowEmpty : Bool) (auth : List Char) : Option String :=
  let hostport := (auth.splitOn '@').getLastD auth
  let host := hostport.takeWhile fun c => c ≠ ':'
  let port := hostport.drop host.length
  if ¬allowEmpty ∧ host = [] then none
  else if host.any forbiddenHostChar then none
  else
    match port with
    | [] => some (lowerStr (String.mk host))
    | _ :: p => if p.all Char.isDigit then some (lowerStr (String.mk host)) else none

def specialSchemes : List String := ["http", "https", "ws", "wss", "ftp"]

/-- Model of `new URL(s)`: `none` when the constructor would throw. -/
def parseURL (s : String) : Option URLRec :=
  match splitScheme (urlStrip s) with
  | none => none
  | some (sch, rest) =>
    if specialSchemes.contains sch then
      -- special schemes treat any run of (back)slashes after the colon as `//`
      let rest := rest.dropWhile fun c => c = '/' ∨ c = '\\'
      let auth := rest.takeWhile fun c => c ≠ '/' ∧ c ≠ '?' ∧ c ≠ '#' ∧ c ≠ '\\'
      let after := rest.drop auth.length
      match parseHostIn false auth with
      | none => none
      | some h =>
        let path := after.takeWhile fun c => c ≠ '?' ∧ c ≠ '#'
        some { scheme := sch, host := h,
               path := if path = [] then "/" else String.mk path }
    else
      if rest.take 2 = ['/', '/'] then
        let rest2 := rest.drop 2
        let auth := rest2.takeWhile fun c => c ≠ '/' ∧ c ≠ '?' ∧ c ≠ '#'
        let after := rest2.drop auth.length
        match parseHostIn true auth with
        | none => none
        | some h =>
          some { scheme := sch, host := h,
                 path := String.mk (after.takeWhile fun c => c ≠ '?' ∧ c ≠ '#') }
      else
        some { scheme := sch, host := "",
               path := String.mk (rest.takeWhile fun c => c ≠ '?' ∧ c ≠ '#') }

/-! ## Media URL classifier (`lesson.controller.js` lines 5–172) -/

def imageExtensions : List String :=
  [".jpg", ".jpeg", ".png", ".gif", ".webp", ".svg", ".bmp", ".ico"]

def imageDomains : List String :=
  [ "imgur.com", "i.imgur.com",
    "unsplash.com", "images.unsplash.com",
    "pixabay.com", "cdn.pixabay.com",
    "pexels.com", "images.pexels.com",
    "githubusercontent.com", "raw.githubusercontent.com",
    "cloudinary.com", "res.cloudinary.com",
    "amazonaws.com", "s3.amazonaws.com",
    "googleusercontent.com",
    "cdn.jsdelivr.net",
    "cdnjs.cloudflare.com",
    "wikimedia.org",
    "freepik.com",
    "shutterstock.com" ]

/-- `validateImageUrl` (lines 31–85), returned JS object modelled as `JVal`.
The two early returns omit the boolean fields in JS; reading an omitted field
yields `undefined`, which is observationally the omission itself. -/
def validateImageUrl (url : JVal) : JVal :=
  if ¬(truthy url ∧ isStr url) then
    .obj [("isValid", .bool false), ("message", .str "URL is required")]
  else
    let s := asStr url
    match parseURL s with
    | none =>
      .obj [("isValid", .bool false), ("hasExtension", .bool false),
            ("isFromTrustedDomain", .bool false), ("isDataUrl", .bool false),
            ("message", .str "Invalid URL format")]
    | some _ =>
      let hasImageExtension := imageExtensions.any fun ext => strContains (lowerStr s) ext
      let isFromImageDomain := imageDomains.any fun d => strContains s d
      let isDataUrl := strStartsWith s "data:image/"
      let ok := hasImageExtension || isFromImageDomain || isDataUrl
      .obj [("isValid", .bool ok),
            ("hasExtension", .bool hasImageExtension),
            ("isFromTrustedDomain", .bool isFromImageDomain),
            ("isDataUrl", .bool isDataUrl),
            ("message", .str (if ok then "Valid image URL"
              else "URL should point to an image file or be from a trusted image hosting service"))]

def ytIdChar (c : Char) : Bool := c.isAlphanum || c = '_' || c = '-'

/-- The regex fragment `([a-zA-Z0-9_-]{11})`: capture exactly eleven id
characters starting here. -/
def ytGrab11 (cs : List Char) : Option String :=
  let pre := cs.take 11
  if pre.length = 11 ∧ pre.all ytIdChar then some (String.mk pre) else none

/-- Try one literal alternative of the YouTube regex at the current position. -/
def ytAlt (p : String) (cs : List Char) : Option String :=
  if p.data.isPrefixOf cs then ytGrab11 (cs.drop p.length) else none

/-- `/(?:youtube\.com\/watch\?v=|youtu\.be\/|youtube\.com\/embed\/)([a-zA-Z0-9_-]{11})/`:
leftmost position wins, alternatives tried in written order. -/
def ytScanMain : List Char → Option String
  | [] => none
  | c :: rest =>
    ytAlt "youtube.com/watch?v=" (c :: rest) <|> ytAlt "youtu.be/" (c :: rest) <|>
      ytAlt "youtube.com/embed/" (c :: rest) <|> ytScanMain rest

/-- `/youtube\.com\/v\/([a-zA-Z0-9_-]{11})/`. -/
def ytScanV : List Char → Option String
  | [] => none
  | c :: rest => ytAlt "youtube.com/v/" (c :: rest) <|> ytScanV rest

/-- The greedy `.*v=([a-zA-Z0-9_-]{11})` tail: the latest `v=` (not beyond a
newline, which `.` cannot cross) followed by eleven id characters. -/
def ytInner : List Char → Option String
  | [] => none
  | c :: rest =>
    if c = '\n' ∨ c = '\r' then none
    else
      ytInner rest <|>
        (if c = 'v' then
          match rest with
          | '=' :: r2 => ytGrab11 r2
          | _ => none
         else none)

/-- `/youtube\.com\/watch\?.*v=([a-zA-Z0-9_-]{11})/`. -/
def ytScanQuery : List Char → Option String
  | [] => none
  | c :: rest =>
    (if ("youtube.com/watch?").data.isPrefixOf (c :: rest) then
      ytInner ((c :: rest).drop 18)
     else none) <|> ytScanQuery rest

/-- The three patterns of `validateYouTubeUrl`, tried in order. -/
def ytMatch (s : String) : Option String :=
  ytScanMain s.data <|> ytScanV s.data <|> ytScanQuery s.data

structure YouTubeData where
  videoId : String
  embedUrl : String
  thumbnailUrl : String
  originalUrl : String
deriving Repr, DecidableEq

/-- `validateYouTubeUrl` (lines 6–28); the JS `null` result is `none`. -/
def validateYouTubeUrl (url : JVal) : Option YouTubeData :=
  if ¬(truthy url ∧ isStr url) then none
  else
    match ytMatch (asStr url) with
    | some vid =>
      some { videoId := vid,
             embedUrl := "https://www.youtube.com/embed/" ++ vid,
             thumbnailUrl := "https://img.youtube.com/vi/" ++ vid ++ "/maxresdefault.jpg",
             originalUrl := asStr url }
    | none => none

/-- `\d+` starting here: the (greedy, nonempty) digit run. -/
def digitsTake (cs : List Char) : Option String :=
  let d := cs.takeWhile Char.isDigit
  if d = [] then none else some (String.mk d)

/-- `/vimeo\.com\/(?:video\/)?(\d+)/` with regex backtracking on the optional
`video/` group. -/
def vimeoScan : List Char → Option String
  | [] => none
  | c :: rest =>
    (if ("vimeo.com/").data.isPrefixOf (c :: rest) then
      let after := (c :: rest).drop 10
      (if ("video/").data.isPrefixOf after then digitsTake (after.drop 6) else none) <|>
        digitsTake after
     else none) <|> vimeoScan rest

/-- `/codepen\.io\/([^\/]+)\/pen\/([^\/\?]+)/`; since `[^\/]+` cannot cross a
slash, the first capture is exactly the segment before the next `/`. -/
def codepenScan : List Char → Option (String × String)
  | [] => none
  | c :: rest =>
    (if ("codepen.io/").data.isPrefixOf (c :: rest) then
      let after := (c :: rest).drop 11
      let user := after.takeWhile fun ch => ch ≠ '/'
      let rest2 := after.drop user.length
      if user ≠ [] ∧ ("/pen/").data.isPrefixOf rest2 then
        let pen := (rest2.drop 5).takeWhile fun ch => ch ≠ '/' ∧ ch ≠ '?'
        if pen ≠ [] then some (String.mk user, String.mk pen) else none
      else none
     else none) <|> codepenScan rest

def trustedEmbedDomains : List String :=
  ["codesandbox.io", "stackblitz.com", "replit.com", "jsfiddle.net",
   "slides.com", "docs.google.com", "figma.com"]

/-- `validateEmbedUrl` (lines 88–172), returned JS object modelled as `JVal`. -/
def validateEmbedUrl (url : JVal) : JVal :=
  if ¬(truthy url ∧ isStr url) then
    .obj [("isValid", .bool false), ("message", .str "URL is required")]
  else
    let s := asStr url
    match parseURL s with
    | none => .obj [("isValid", .bool false), ("message", .str "Invalid URL format")]
    | some u =>
      match validateYouTubeUrl url with
      | some yt =>
        .obj [("isValid", .bool true), ("service", .str "youtube"),
              ("embedUrl", .str yt.embedUrl), ("thumbnailUrl", .str yt.thumbnailUrl),
              ("videoId", .str yt.videoId), ("originalUrl", .str s),
              ("width", .num 560), ("height", .num 315)]
      | none =>
        match vimeoScan s.data with
        | some vid =>
          .obj [("isValid", .bool true), ("service", .str "vimeo"),
                ("embedUrl", .str ("https://player.vimeo.com/video/" ++ vid)),
                ("videoId", .str vid), ("originalUrl", .str s),
                ("width", .num 640), ("height", .num 360)]
        | none =>
          match codepenScan s.data with
          | some up =>
            .obj [("isValid", .bool true), ("service", .str "codepen"),
                  ("embedUrl", .str ("https://codepen.io/" ++ up.1 ++ "/embed/" ++ up.2)),
                  ("originalUrl", .str s), ("width", .num 800), ("height", .num 400)]
          | none =>
            if trustedEmbedDomains.any (fun t => strContains u.host t) then
              .obj [("isValid", .bool true), ("service", .str "iframe"),
                    ("embedUrl", .str s), ("originalUrl", .str s),
                    ("width", .num 800), ("height", .num 600)]
            else
              .obj [("isValid", .bool false),
                    ("message", .str "URL is not from a supported embed service")]

/-! ## Content validator / sanitizer (`lesson.controller.js` lines 174–352)

`validateAndCleanLessonContent` is embedded one switch case per helper; each
helper takes `dat` (the block's `block.data` after the object-default repair,
which the source only reads) and `pd` (the `processedBlock.data` copy, which
the source only writes).  `Date.now()` is the parameter `now`; the generated
random id suffix is the parameter `genId` applied to the block index. -/

/-- JS strict equality `v === 's'` against a string literal. -/
def strictEqStr (v : JVal) (s : String) : Bool :=
  match v with
  | .str t => t = s
  | _ => false

def validStyles : List String := ["ordered", "unordered", "checklist"]

/-- `validStyles.includes(block.data.style)`. -/
def styleIsValid (v : JVal) : Bool :=
  match v with
  | .str s => validStyles.contains s
  | _ => false

/-- `case 'header'` (lines 230–234). -/
def repairHeader (dat pd : JVal) : JVal :=
  let lv := jsGet dat "level"
  if truthy lv ∧ (jsLtI lv 1 ∨ jsGtI lv 6) then objSet pd "level" (.num 2) else pd

/-- `case 'list'` (lines 236–244). -/
def repairList (dat pd : JVal) : JVal :=
  let pd := if ¬ styleIsValid (jsGet dat "style") then objSet pd "style" (.str "unordered") else pd
  if ¬ isArr (jsGet dat "items") then objSet pd "items" (.arr []) else pd

/-- Lines 258–260 (also 287–290 for embeds): keep the block but mark it
invalid with the classifier's message. -/
def markInvalid (pd reason : JVal) : JVal :=
  objSet (objSet pd "invalid" (.bool true)) "invalidReason" reason

/-- Lines 250–255: the six assignments of the valid-image branch. -/
def imageValidWrites (dat pd u : JVal) : JVal :=
  let pd := objSet pd "url" u
  let pd := objSet pd "alt" (jsOr (jsGet dat "alt") (jsOr (jsGet dat "caption") (.str "")))
  let pd := objSet pd "caption" (jsOr (jsGet dat "caption") (.str ""))
  let pd := objSet pd "stretched" (jsOr (jsGet dat "stretched") (.bool false))
  let pd := objSet pd "withBorder" (jsOr (jsGet dat "withBorder") (.bool false))
  objSet pd "withBackground" (jsOr (jsGet dat "withBackground") (.bool false))

/-- `case 'image'` (lines 246–263). -/
def repairImage (dat pd : JVal) : JVal :=
  let u := jsGet dat "url"
  if truthy u then
    let iv := validateImageUrl u
    if truthy (jsGet iv "isValid") then imageValidWrites dat pd u
    else markInvalid pd (jsGet iv "message")
  else pd

/-- Lines 272–286: the object-literal rebuild of the valid-embed branch
(spread of the copied data, the six named fields, and the two extra YouTube
fields). -/
def embedValidWrites (dat pd ev : JVal) : JVal :=
  let pd := jsSpread pd
  let pd := objSet pd "service" (jsGet ev "service")
  let pd := objSet pd "url" (jsGet ev "originalUrl")
  let pd := objSet pd "embed" (jsGet ev "embedUrl")
  let pd := objSet pd "width" (jsOr (jsGet ev "width") (jsOr (jsGet dat "width") (.num 560)))
  let pd := objSet pd "height" (jsOr (jsGet ev "height") (jsOr (jsGet dat "height") (.num 315)))
  let pd := objSet pd "caption" (jsOr (jsGet dat "caption") (.str ""))
  if strictEqStr (jsGet ev "service") "youtube" then
    objSet (objSet pd "videoId" (jsGet ev "videoId")) "thumbnail" (jsGet ev "thumbnailUrl")
  else pd

/-- `case 'video'` / `case 'embed'` (lines 265–293). -/
def repairEmbed (dat pd : JVal) : JVal :=
  if truthy (jsGet dat "url") ∨ truthy (jsGet dat "source") then
    let u := jsOr (jsGet dat "url") (jsGet dat "source")
    let ev := validateEmbedUrl u
    if truthy (jsGet ev "isValid") then embedValidWrites dat pd ev
    else markInvalid pd (jsGet ev "message")
  else pd

/-- `case 'code'` (lines 295–299). -/
def repairCode (dat pd : JVal) : JVal :=
  objSet (objSet pd "code" (jsOr (jsGet dat "code") (.str "")))
    "language" (jsOr (jsGet dat "language") (.str "javascript"))

/-- `case 'quote'` (lines 301–305). -/
def repairQuote (dat pd : JVal) : JVal :=
  let pd := objSet pd "text" (jsOr (jsGet dat "text") (.str ""))
  let pd := objSet pd "caption" (jsOr (jsGet dat "caption") (.str ""))
  objSet pd "alignment" (jsOr (jsGet dat "alignment") (.str "left"))

/-- `case 'table'` (lines 307–312). -/
def repairTable (dat pd : JVal) : JVal :=
  let pd := if ¬ isArr (jsGet dat "content") then objSet pd "content" (.arr [.arr [.str ""]]) else pd
  objSet pd "withHeadings" (jsOr (jsGet dat "withHeadings") (.bool false))

/-- `case 'warning'` (lines 314–317). -/
def repairWarning (dat pd : JVal) : JVal :=
  objSet (objSet pd "title" (jsOr (jsGet dat "title") (.str "Warning")))
    "message" (jsOr (jsGet dat "message") (.str ""))

/-- The `switch (block.type)` dispatch (lines 229–318); types outside the
repair set leave the copied data untouched. -/
def repairData (ty : String) (dat pd : JVal) : JVal :=
  if ty = "header" then repairHeader dat pd
  else if ty = "list" then repairList dat pd
  else if ty = "image" then repairImage dat pd
  else if ty = "video" ∨ ty = "embed" then repairEmbed dat pd
  else if ty = "code" then repairCode dat pd
  else if ty = "quote" then repairQuote dat pd
  else if ty = "table" then repairTable dat pd
  else if ty = "warning" then repairWarning dat pd
  else pd

/-- Lines 211–214: a missing/falsy/non-string `type` is repaired to
`"paragraph"`. -/
def blockType (block : JVal) : String :=
  if truthy (jsGet block "type") ∧ isStr (jsGet block "type")
  then asStr (jsGet block "type") else "paragraph"

/-- Lines 217–219: `data` is defaulted to `{}` unless it is a truthy
`typeof`-object. -/
def blockData (block : JVal) : JVal :=
  if truthy (jsGet block "data") ∧ typeofObject (jsGet block "data")
  then jsGet block "data" else .obj []

/-- Line 223: `block.id || block_${Date.now()}_${random}`. -/
def blockId (genId : Nat → String) (i : Nat) (block : JVal) : JVal :=
  if truthy (jsGet block "id") then jsGet block "id" else .str ("block_" ++ genId i)

/-- One iteration of the cleaning loop (lines 201–321): skip non-objects,
repair the type, default the data, generate an id when the block's own is
falsy, shallow-copy the data, then dispatch on the type. -/
def processBlock (genId : Nat → String) (i : Nat) (block : JVal) : Option JVal :=
  if ¬(truthy block ∧ typeofObject block) then none
  else
    some (.obj [("id", blockId genId i block),
                ("type", .str (blockType block)),
                ("data", repairData (blockType block) (blockData block)
                  (jsSpread (blockData block)))])

/-- The `for` loop over `content.blocks`, appending the surviving cleaned
blocks in order. -/
def cleanBlocksGo (genId : Nat → String) : Nat → List JVal → List JVal
  | _, [] => []
  | i, b :: t =>
    match processBlock genId i b with
    | some pb => pb :: cleanBlocksGo genId (i + 1) t
    | none => cleanBlocksGo genId (i + 1) t

structure CleanResult where
  isValid : Bool
  cleanContent : JVal

/-- `validateAndCleanLessonContent` (lines 175–331). -/
def validateAndCleanLessonContent (now : Int) (genId : Nat → String) (content : JVal) :
    CleanResult :=
  if ¬(truthy content ∧ typeofObject content) then
    { isValid := true,
      cleanContent := .obj [("time", .num now), ("blocks", .arr []), ("version", .str "2.28.2")] }
  else
    let bl := jsGet content "blocks"
    if ¬(truthy bl ∧ isArr bl) then
      { isValid := true,
        cleanContent := .obj [("time", jsOr (jsGet content "time") (.num now)),
                              ("blocks", .arr []),
                              ("version", jsOr (jsGet content "version") (.str "2.28.2"))] }
    else
      let cleanBlocks := cleanBlocksGo genId 0 (match bl with | .arr xs => xs | _ => [])
      { isValid := true,
        cleanContent := .obj [("time", jsOr (jsGet content "time") (.num now)),
                              ("blocks", .arr cleanBlocks),
                              ("version", jsOr (jsGet content "version") (.str "2.28.2"))] }

/-- `sanitizeContent` (lines 349–352). -/
def sanitizeContent (now : Int) (genId : Nat → String) (content : JVal) : JVal :=
  (validateAndCleanLessonContent now genId content).cleanContent

/-! ## Content renderer (`generateHTMLFromLesson`, lines 1054–1163)

Rendering can throw a `TypeError` in JS (calling `.forEach` on a truthy
non-array `blocks`, `items`, `content`, or on a non-array table row), so the
rendering functions return `Option String`, `none` marking the throw. -/

/-- The lesson metadata interpolated into the HTML skeleton. -/
structure LessonView where
  title : String
  duration : Int
  tutorialTitle : String
  content : JVal

/-- The template text emitted before the blocks (lines 1055–1079). -/
def htmlHead (title : String) (duration : Int) (tutorialTitle : String) : String :=
  "<!DOCTYPE html>\n<html>\n<head>\n    <title>" ++ title ++
  "</title>\n    <meta charset=\"UTF-8\">\n    <style>\n        body \x7b font-family: Arial, sans-serif; max-width: 800px; margin: 0 auto; padding: 20px; \x7d\n        h1, h2, h3, h4, h5, h6 \x7b color: #333; \x7d\n        code \x7b background: #f4f4f4; padding: 2px 4px; border-radius: 3px; \x7d\n        pre \x7b background: #f4f4f4; padding: 10px; border-radius: 5px; overflow-x: auto; \x7d\n        blockquote \x7b border-left: 4px solid #ddd; margin-left: 0; padding-left: 20px; \x7d\n        table \x7b border-collapse: collapse; width: 100%; \x7d\n        th, td \x7b border: 1px solid #ddd; padding: 8px; text-align: left; \x7d\n        th \x7b background-color: #f2f2f2; \x7d\n        .embed-container \x7b position: relative; padding-bottom: 56.25%; height: 0; overflow: hidden; max-width: 100%; \x7d\n        .embed-container iframe \x7b position: absolute; top: 0; left: 0; width: 100%; height: 100%; \x7d\n        img \x7b max-width: 100%; height: auto; \x7d\n    </style>\n</head>\n<body>\n    <h1>" ++ title ++
  "</h1>\n    <p><strong>Duration:</strong> " ++ toString duration ++
  " minutes</p>\n    <p><strong>Tutorial:</strong> " ++ tutorialTitle ++ "</p>\n    <hr>\n"

/-- The template text emitted after the blocks (lines 1158–1160). -/
def htmlTail : String := "\n</body>\n</html>"

/-- One `<li>` per list item; items may be raw strings or `{content}` objects. -/
def renderListItems (items : List JVal) : String :=
  String.join (items.map fun item =>
    let content := if isStr item then item else jsOr (jsGet item "content") (.str "")
    "<li>" ++ jsToString content ++ "</li>")

/-- One table row: `none` if the row is not an array (`row.forEach` throws). -/
def renderTableRow (wh : Bool) (idx : Nat) (row : JVal) : Option String :=
  match row with
  | .arr cells =>
    some (String.join (cells.map fun cell =>
      let tag := if wh ∧ idx = 0 then "th" else "td"
      "<" ++ tag ++ ">" ++ jsToString cell ++ "</" ++ tag ++ ">"))
  | _ => none

def renderTableRows (wh : Bool) : Nat → List JVal → Option String
  | _, [] => some ""
  | i, r :: t => do
    let s ← renderTableRow wh i r
    let rest ← renderTableRows wh (i + 1) t
    pure ("<tr>" ++ s ++ "</tr>" ++ rest)

/-- The per-block `switch` of `generateHTMLFromLesson` (lines 1082–1155); a
JS `switch` compares the scrutinee to each case label with strict equality in
source order, so the dispatch is a chain of string-equality tests and every
other value of `type` (unknown or non-string) falls to the default, which
contributes `""`. -/
def renderBlockHTML (block : JVal) : Option String :=
  if ¬(truthy block ∧ truthy (jsGet block "type")) then some ""
  else
    let d := jsGet block "data"
    let ty := jsGet block "type"
    if strictEqStr ty "header" then
      some ("<h" ++ jsToString (jsOr (jsGet d "level") (.num 2)) ++ ">" ++
        jsToString (jsOr (jsGet d "text") (.str "")) ++
        "</h" ++ jsToString (jsOr (jsGet d "level") (.num 2)) ++ ">")
    else if strictEqStr ty "paragraph" then
      some ("<p>" ++ jsToString (jsOr (jsGet d "text") (.str "")) ++ "</p>")
    else if strictEqStr ty "list" then
      let tag := if strictEqStr (jsGet d "style") "ordered" then "ol" else "ul"
      (if truthy (jsGet d "items") then
        match jsGet d "items" with
        | .arr xs => some (renderListItems xs)
        | _ => none
       else some "").map fun inner => "<" ++ tag ++ ">" ++ inner ++ "</" ++ tag ++ ">"
    else if strictEqStr ty "code" then
      some ("<pre><code class=\"language-" ++
        jsToString (jsOr (jsGet d "language") (.str "javascript")) ++ "\">" ++
        jsToString (jsOr (jsGet d "code") (.str "")) ++ "</code></pre>")
    else if strictEqStr ty "quote" then
      some ("<blockquote><p>" ++ jsToString (jsOr (jsGet d "text") (.str "")) ++ "</p>" ++
        (if truthy (jsGet d "caption") then
          "<cite>— " ++ jsToString (jsGet d "caption") ++ "</cite>"
         else "") ++ "</blockquote>")
    else if strictEqStr ty "image" then
      some (if truthy (jsGet d "url") ∧ ¬ truthy (jsGet d "invalid") then
        "<figure>" ++ "<img src=\"" ++ jsToString (jsGet d "url") ++ "\" alt=\"" ++
        jsToString (jsOr (jsGet d "alt") (.str "")) ++ "\" />" ++
        (if truthy (jsGet d "caption") then
          "<figcaption>" ++ jsToString (jsGet d "caption") ++ "</figcaption>"
         else "") ++ "</figure>"
      else "")
    else if strictEqStr ty "video" then
      some (renderEmbedHTML d)
    else if strictEqStr ty "embed" then
      some (renderEmbedHTML d)
    else if strictEqStr ty "delimiter" then some "<hr>"
    else if strictEqStr ty "table" then
      if truthy (jsGet d "content") then
        match jsGet d "content" with
        | .arr rows =>
          (renderTableRows (truthy (jsGet d "withHeadings")) 0 rows).map
            fun s => "<table>" ++ s ++ "</table>"
        | _ => none
      else some ""
    else some ""
where
  /-- Shared `case 'video': case 'embed':` body (lines 1123–1133). -/
  renderEmbedHTML (d : JVal) : String :=
    if truthy (jsGet d "embed") ∧ ¬ truthy (jsGet d "invalid") then
      "<div class=\"embed-container\">" ++ "<iframe src=\"" ++ jsToString (jsGet d "embed") ++
      "\" frameborder=\"0\" allowfullscreen></iframe>" ++ "</div>" ++
      (if truthy (jsGet d "caption") then
        "<p><em>" ++ jsToString (jsGet d "caption") ++ "</em></p>"
       else "")
    else ""

/-- The `forEach` over `content.blocks`, appending each block's HTML. -/
def renderBlocksHTML : List JVal → Option String
  | [] => some ""
  | b :: t => do
    let s ← renderBlockHTML b
    let rest ← renderBlocksHTML t
    pure (s ++ rest)

/-- `generateHTMLFromLesson` (lines 1054–1163). -/
def generateHTMLFromLesson (lesson : LessonView) : Option String := do
  let body ←
    if truthy lesson.content ∧ truthy (jsGet lesson.content "blocks") then
      match jsGet lesson.content "blocks" with
      | .arr bs => renderBlocksHTML bs
      | _ => none
    else some ""
  pure (htmlHead lesson.title lesson.duration lesson.tutorialTitle ++ body ++ htmlTail)

/-! ## Strict content validator

`validateLessonContent` from the stricter controller revision
(`src/unnamed/part_000`…`part_010` series, lines 6–24 of that file).
Reading `block.type` of a `null`/`undefined` array entry throws in JS, so the
function returns `Option`, `none` marking the throw. -/

structure StrictResult where
  isValid : Bool
  message : Option String
deriving Repr, DecidableEq

/-- The `for` loop of `validateLessonContent`: first violation wins. -/
def validateBlocksGo : Nat → List JVal → Option StrictResult
  | _, [] => some { isValid := true, message := none }
  | i, b :: t =>
    match b with
    | .null => none
    | .undef => none
    | _ =>
      if ¬ truthy (jsGet b "type") then
        some { isValid := false,
               message := some ("Block " ++ toString (i + 1) ++ " is missing a type") }
      else validateBlocksGo (i + 1) t

/-- `validateLessonContent` (strict revision, lines 6–24). -/
def validateLessonContent (content : JVal) : Option StrictResult :=
  if ¬(truthy content ∧ typeofObject content) then
    some { isValid := false, message := some "Content must be a valid object" }
  else
    let bl := jsGet content "blocks"
    if ¬(truthy bl ∧ isArr bl) then
      some { isValid := false, message := some "Content must have a blocks array" }
    else
      validateBlocksGo 0 (match bl with | .arr xs => xs | _ => [])

/-! ## Lesson duplication (`duplicateLesson`, lines 827–875)

The persistence collaborator is modelled as a list of lesson records;
`Lesson.findOne({tutorial}).sort({order:-1})` returns a lesson carrying the
maximum `order` of the tutorial, so `lastLesson.order` is that maximum. -/

structure LessonRec where
  id : Nat
  tutorial : Nat
  title : String
  order : Int
  duration : Int
  content : JVal
  isPublished : Bool

/-- `Lesson.findById(id)`. -/
def findLessonById (db : List LessonRec) (i : Nat) : Option LessonRec :=
  db.find? fun l => l.id == i

/-- The `order` of `Lesson.findOne({tutorial: t}).sort({order: -1})`:
the maximum order in the tutorial, `none` when the tutorial has no lessons. -/
def maxOrderIn (db : List LessonRec) (t : Nat) : Option Int :=
  match (db.filter fun l => l.tutorial == t).map (fun l => l.order) with
  | [] => none
  | o :: os => some (os.foldl max o)

/-- `duplicateLesson` (lines 827–875): `none` is the 404 path; on success the
new record is inserted with the next order, sanitized content, and
`isPublished := false` (`// Always create copies as drafts`). -/
def duplicateLesson (now : Int) (genId : Nat → String) (db : List LessonRec)
    (lessonId newId : Nat) : Option (List LessonRec) :=
  match findLessonById db lessonId with
  | none => none
  | some orig =>
    let nextOrder : Int :=
      match maxOrderIn db orig.tutorial with
      | some m => m + 1
      | none => 1
    let dup : LessonRec :=
      { id := newId
        tutorial := orig.tutorial
        title := orig.title ++ " (Copy)"
        order := nextOrder
        duration := orig.duration
        content := sanitizeContent now genId orig.content
        isPublished := false }
    some (db ++ [dup])

/-- The block list of a content document value. -/
def blocksOf (v : JVal) : List JVal :=
  match jsGet v "blocks" with
  | .arr xs => xs
  | _ => []

/-- The top-level property names of an object value. -/
def objKeys : JVal → List String
  | .obj fs => fs.map Prod.fst
  | _ => []

/-- The block types with a dedicated repair case in the sanitizer's switch. -/
def repairTypes : List String :=
  ["header", "list", "image", "video", "embed", "code", "quote", "table", "warning"]

/-- The image-validity predicate as the SPEC words it ("the URL parses, AND
(its path has a known image extension OR its host matches a curated
allow-list of image-hosting domains OR it is a `data:image/` URI)") — stated
for comparison with the implementation `validateImageUrl`, which instead
looks for the extension and domain as substrings of the whole URL. -/
def specImageValid (s : String) : Bool :=
  match parseURL s with
  | none => false
  | some u =>
    (imageExtensions.any fun ext => strEndsWith (lowerStr u.path) ext) ||
    imageDomains.contains u.host ||
    strStartsWith s "data:image/"

/-! ## Basic lemmas about the JS value model -/

namespace JVal

@[simp] theorem assocLookup_set_self (fs : List (String × JVal)) (k : String) (v : JVal) :
    assocLookup (assocSet fs k v) k = some v := by
  induction fs with
  | nil => simp [assocSet, assocLookup]
  | cons p t ih =>
    by_cases h : p.1 = k <;> simp [assocSet, assocLookup, h, ih]

theorem assocLookup_set_ne (fs : List (String × JVal)) {k k' : String} (v : JVal)
    (h : k ≠ k') : assocLookup (assocSet fs k' v) k = assocLookup fs k := by
  induction fs with
  | nil => simp [assocSet, assocLookup, Ne.symm h]
  | cons p t ih =>
    obtain ⟨a, w⟩ := p
    by_cases h' : a = k' <;> by_cases h'' : a = k <;>
      simp_all [assocSet, assocLookup, Ne.symm h]

theorem assocSet_of_lookup {fs : List (String × JVal)} {k : String} {v : JVal}
    (h : assocLookup fs k = some v) : assocSet fs k v = fs := by
  induction fs with
  | nil => simp [assocLookup] at h
  | cons p t ih =>
    obtain ⟨a, w⟩ := p
    by_cases h' : a = k
    · subst h'
      have hw : w = v := by simpa [assocLookup] using h
      subst hw
      simp [assocSet]
    · simp only [assocLookup, if_neg h'] at h
      simp [assocSet, h', ih h]

theorem isObjLit_objSet {p : JVal} (hp : isObjLit p) (k : String) (v : JVal) :
    isObjLit (objSet p k v) := by
  cases p <;> simp_all [isObjLit, objSet]

@[simp] theorem isObjLit_spread (v : JVal) : isObjLit (jsSpread v) := by
  cases v <;> simp [isObjLit, jsSpread]

@[simp] theorem jsGet_spread (v : JVal) (k : String) : jsGet (jsSpread v) k = jsGet v k := by
  cases v <;> simp [jsGet, jsSpread, objLookup, assocLookup]

theorem jsSpread_of_objLit {p : JVal} (hp : isObjLit p) : jsSpread p = p := by
  cases p <;> simp_all [isObjLit, jsSpread]

theorem jsGet_objSet_self {p : JVal} (hp : isObjLit p) (k : String) (v : JVal) :
    jsGet (objSet p k v) k = v := by
  cases p <;> simp_all [isObjLit, objSet, jsGet, objLookup]

theorem objLookup_objSet_self {p : JVal} (hp : isObjLit p) (k : String) (v : JVal) :
    objLookup (objSet p k v) k = some v := by
  cases p <;> simp_all [isObjLit, objSet, objLookup]

theorem jsGet_objSet_ne {p : JVal} {k k' : String} (v : JVal) (h : k ≠ k') :
    jsGet (objSet p k' v) k = jsGet p k := by
  cases p <;> simp [objSet, jsGet, objLookup, assocLookup_set_ne _ _ h]

theorem objLookup_objSet_ne {p : JVal} {k k' : String} (v : JVal) (h : k ≠ k') :
    objLookup (objSet p k' v) k = objLookup p k := by
  cases p <;> simp [objSet, objLookup, assocLookup_set_ne _ _ h]

/-- Writing a value that is already the stored value is a no-op. -/
theorem objSet_of_lookup {p : JVal} {k : String} {v : JVal}
    (h : objLookup p k = some v) : objSet p k v = p := by
  cases p <;> simp_all [objLookup, objSet, assocSet_of_lookup]

theorem jsOr_of_truthy {a : JVal} (b : JVal) (h : truthy a) : jsOr a b = a := by
  simp [jsOr, h]

theorem jsOr_of_falsy {a : JVal} (b : JVal) (h : ¬ truthy a) : jsOr a b = b := by
  simp [jsOr, h]

/-- `(a || b) || b = a || b`. -/
@[simp] theorem jsOr_absorb (a b : JVal) : jsOr (jsOr a b) b = jsOr a b := by
  by_cases h : truthy a
  · rw [jsOr_of_truthy _ h, jsOr_of_truthy _ h]
  · rw [jsOr_of_falsy _ h]
    by_cases h' : truthy b
    · rw [jsOr_of_truthy _ h']
    · rw [jsOr_of_falsy _ h']

theorem truthy_jsOr {a b : JVal} : truthy (jsOr a b) = (truthy a || truthy b) := by
  by_cases h : truthy a <;> simp [jsOr, h]

theorem truthy_block_id (g : String) : truthy (.str ("block_" ++ g)) := by
  have hne : "block_" ++ g ≠ "" := by
    intro h
    have hl := congrArg String.length h
    rw [String.length_append] at hl
    have h6 : "block_".length = 6 := rfl
    have h0 : "".length = 0 := rfl
    omega
  simpa [truthy] using hne

end JVal

/-! ## Structural lemmas about the sanitizer -/

@[simp] theorem jsGet_block_id (i t d : JVal) :
    jsGet (.obj [("id", i), ("type", t), ("data", d)]) "id" = i := rfl

@[simp] theorem jsGet_block_type (i t d : JVal) :
    jsGet (.obj [("id", i), ("type", t), ("data", d)]) "type" = t := rfl

@[simp] theorem jsGet_block_data (i t d : JVal) :
    jsGet (.obj [("id", i), ("type", t), ("data", d)]) "data" = d := rfl

@[simp] theorem jsGet_doc_time (t v : JVal) (bs : List JVal) :
    jsGet (.obj [("time", t), ("blocks", .arr bs), ("version", v)]) "time" = t := rfl

@[simp] theorem jsGet_doc_blocks (t v : JVal) (bs : List JVal) :
    jsGet (.obj [("time", t), ("blocks", .arr bs), ("version", v)]) "blocks" = .arr bs := rfl

@[simp] theorem jsGet_doc_version (t v : JVal) (bs : List JVal) :
    jsGet (.obj [("time", t), ("blocks", .arr bs), ("version", v)]) "version" = v := rfl

open JVal in
theorem repairHeader_isObjLit {dat pd : JVal} (hp : isObjLit pd) :
    isObjLit (repairHeader dat pd) := by
  unfold repairHeader
  dsimp only
  split
  · exact isObjLit_objSet hp _ _
  · exact hp

open JVal in
theorem repairList_isObjLit {dat pd : JVal} (hp : isObjLit pd) :
    isObjLit (repairList dat pd) := by
  unfold repairList
  dsimp only
  split <;> split <;>
    first
      | exact isObjLit_objSet (isObjLit_objSet hp _ _) _ _
      | exact isObjLit_objSet hp _ _
      | exact hp

open JVal in
theorem markInvalid_isObjLit {pd r : JVal} (hp : isObjLit pd) :
    isObjLit (markInvalid pd r) :=
  isObjLit_objSet (isObjLit_objSet hp _ _) _ _

open JVal in
theorem imageValidWrites_isObjLit {dat pd u : JVal} (hp : isObjLit pd) :
    isObjLit (imageValidWrites dat pd u) :=
  isObjLit_objSet (isObjLit_objSet (isObjLit_objSet (isObjLit_objSet
    (isObjLit_objSet (isObjLit_objSet hp _ _) _ _) _ _) _ _) _ _) _ _

open JVal in
theorem repairImage_isObjLit {dat pd : JVal} (hp : isObjLit pd) :
    isObjLit (repairImage dat pd) := by
  unfold repairImage
  dsimp only
  split
  · split
    · exact imageValidWrites_isObjLit hp
    · exact markInvalid_isObjLit hp
  · exact hp

open JVal in
theorem embedValidWrites_isObjLit {dat pd ev : JVal} :
    isObjLit (embedValidWrites dat pd ev) := by
  unfold embedValidWrites
  dsimp only
  split
  · exact isObjLit_objSet (isObjLit_objSet (isObjLit_objSet (isObjLit_objSet
      (isObjLit_objSet (isObjLit_objSet (isObjLit_objSet (isObjLit_objSet
        (isObjLit_spread pd) _ _) _ _) _ _) _ _) _ _) _ _) _ _) _ _
  · exact isObjLit_objSet (isObjLit_objSet (isObjLit_objSet (isObjLit_objSet
      (isObjLit_objSet (isObjLit_objSet (isObjLit_spread pd) _ _) _ _) _ _) _ _) _ _) _ _

open JVal in
theorem repairEmbed_isObjLit {dat pd : JVal} (hp : isObjLit pd) :
    isObjLit (repairEmbed dat pd) := by
  unfold repairEmbed
  dsimp only
  split
  · split
    · exact embedValidWrites_isObjLit
    · exact markInvalid_isObjLit hp
  · exact hp

open JVal in
theorem repairCode_isObjLit {dat pd : JVal} (hp : isObjLit pd) :
    isObjLit (repairCode dat pd) :=
  isObjLit_objSet (isObjLit_objSet hp _ _) _ _

open JVal in
theorem repairQuote_isObjLit {dat pd : JVal} (hp : isObjLit pd) :
    isObjLit (repairQuote dat pd) :=
  isObjLit_objSet (isObjLit_objSet (isObjLit_objSet hp _ _) _ _) _ _

open JVal in
theorem repairTable_isObjLit {dat pd : JVal} (hp : isObjLit pd) :
    isObjLit (repairTable dat pd) := by
  unfold repairTable
  dsimp only
  split
  · exact isObjLit_objSet (isObjLit_objSet hp _ _) _ _
  · exact isObjLit_objSet hp _ _

open JVal in
theorem repairWarning_isObjLit {dat pd : JVal} (hp : isObjLit pd) :
    isObjLit (repairWarning dat pd) :=
  isObjLit_objSet (isObjLit_objSet hp _ _) _ _

open JVal in
theorem repairData_isObjLit (ty : String) {dat pd : JVal} (hp : isObjLit pd) :
    isObjLit (repairData ty dat pd) := by
  unfold repairData
  split
  · exact repairHeader_isObjLit hp
  split
  · exact repairList_isObjLit hp
  split
  · exact repairImage_isObjLit hp
  split
  · exact repairEmbed_isObjLit hp
  split
  · exact repairCode_isObjLit hp
  split
  · exact repairQuote_isObjLit hp
  split
  · exact repairTable_isObjLit hp
  split
  · exact repairWarning_isObjLit hp
  · exact hp

open JVal in
/-- A generated block id is always truthy. -/
theorem truthy_blockId (g : Nat → String) (i : Nat) (block : JVal) :
    truthy (blockId g i block) := by
  unfold blockId
  split
  · assumption
  · exact truthy_block_id _

open JVal in
/-- The repaired block type is never the empty string. -/
theorem blockType_ne_empty (block : JVal) : blockType block ≠ "" := by
  unfold blockType
  split
  · rename_i h
    obtain ⟨ht, hs⟩ := h
    cases hb : jsGet block "type" <;> rw [hb] at ht hs <;> simp [isStr] at hs
    simpa [truthy, asStr] using ht
  · simp

open JVal in
/-- Every block the cleaning loop keeps has exactly the literal shape
`{id, type, data}` with a truthy id, a non-empty type, and an object data. -/
theorem processBlock_shape {g : Nat → String} {i : Nat} {b pb : JVal}
    (h : processBlock g i b = some pb) :
    ∃ idv ty pd, pb = .obj [("id", idv), ("type", .str ty), ("data", pd)] ∧
      truthy idv ∧ ty ≠ "" ∧ isObjLit pd := by
  unfold processBlock at h
  split at h
  · exact absurd h (by simp)
  · rw [Option.some.injEq] at h
    exact ⟨_, _, _, h.symm, truthy_blockId _ _ _, blockType_ne_empty _,
      repairData_isObjLit _ (isObjLit_spread _)⟩

open JVal in
theorem mem_cleanBlocksGo {g : Nat → String} {bs : List JVal} {pb : JVal} :
    ∀ {i : Nat}, pb ∈ cleanBlocksGo g i bs → ∃ j b, b ∈ bs ∧ processBlock g j b = some pb := by
  induction bs with
  | nil => intro i h; simp [cleanBlocksGo] at h
  | cons b t ih =>
    intro i h
    unfold cleanBlocksGo at h
    cases hp : processBlock g i b with
    | some pb' =>
      rw [hp] at h
      rcases List.mem_cons.mp h with h' | h'
      · exact ⟨i, b, List.mem_cons_self _ _, h' ▸ hp⟩
      · obtain ⟨j, b', hb', hj⟩ := ih h'
        exact ⟨j, b', List.mem_cons_of_mem _ hb', hj⟩
    | none =>
      rw [hp] at h
      obtain ⟨j, b', hb', hj⟩ := ih h
      exact ⟨j, b', List.mem_cons_of_mem _ hb', hj⟩

open JVal in
/-- Every block of a sanitized document comes out of `processBlock`. -/
theorem mem_blocksOf_sanitize {now : Int} {g : Nat → String} {x pb : JVal}
    (h : pb ∈ blocksOf (sanitizeContent now g x)) :
    ∃ j b, processBlock g j b = some pb := by
  unfold sanitizeContent validateAndCleanLessonContent at h
  split at h
  · simp [blocksOf] at h
  · dsimp only at h
    split at h
    · simp [blocksOf] at h
    · simp only [blocksOf, jsGet_doc_blocks] at h
      obtain ⟨j, b, _, hj⟩ := mem_cleanBlocksGo h
      exact ⟨j, b, hj⟩

/-! ## Claim C3 -/

/-- C3 (counterexample): the claim says `sanitize` always returns a
*well-formed ContentDocument* (integer `timestamp`, string `formatVersion`).
On the input `{time: "x", blocks: [], version: 5}` the code preserves the
truthy but ill-typed `time` and `version` unchanged, so the output's `time`
is not a number and its `version` is not a string. -/
theorem sanitize_wellformed_counterexample :
    sanitizeContent 1000 (fun _ => "")
        (.obj [("time", .str "x"), ("blocks", .arr []), ("version", .num 5)])
      = .obj [("time", .str "x"), ("blocks", .arr []), ("version", .num 5)]
    ∧ isStr (jsGet (sanitizeContent 1000 (fun _ => "")
        (.obj [("time", .str "x"), ("blocks", .arr []), ("version", .num 5)])) "version")
        = false
    ∧ (match jsGet (sanitizeContent 1000 (fun _ => "")
        (.obj [("time", .str "x"), ("blocks", .arr []), ("version", .num 5)])) "time" with
       | .num _ => true
       | _ => false) = false :=
  ⟨rfl, rfl, rfl⟩

/-- C3 (amended): `sanitize` never throws and always returns a document with
exactly the fields `time`, `blocks`, `version` where `blocks` is an array;
for `null`/non-object input the result is the empty-blocks document carrying
the current timestamp and format version `"2.28.2"`.  (The original claim's
"well-formed ContentDocument" fails only in that a truthy non-number `time` /
non-string `version` of the input is preserved as-is; see the
counterexample.) -/
theorem sanitize_total_and_default (now : Int) (g : Nat → String) (x : JVal) :
    (∃ t bs v, sanitizeContent now g x = .obj [("time", t), ("blocks", .arr bs), ("version", v)]) ∧
    ((truthy x && typeofObject x) = false →
      sanitizeContent now g x
        = .obj [("time", .num now), ("blocks", .arr []), ("version", .str "2.28.2")]) := by
  constructor
  · unfold sanitizeContent validateAndCleanLessonContent
    split
    · exact ⟨_, _, _, rfl⟩
    · dsimp only
      split
      · exact ⟨_, _, _, rfl⟩
      · exact ⟨_, _, _, rfl⟩
  · intro hx
    unfold sanitizeContent validateAndCleanLessonContent
    rw [if_pos]
    intro ⟨h1, h2⟩
    rw [h1, h2] at hx
    simp at hx

/-- C3 (witness): the amended theorem applied at `null`. -/
theorem sanitize_total_and_default_witness :
    sanitizeContent 0 (fun _ => "") .null
      = .obj [("time", .num 0), ("blocks", .arr []), ("version", .str "2.28.2")] :=
  (sanitize_total_and_default 0 (fun _ => "") .null).2 (by decide)

/-! ## Claim C8 -/

/-- C8 (counterexample): the claim says `sanitize` preserves a *present and
well-typed* `timestamp`/`formatVersion` — an integer timestamp, a string
version.  The input `{time: 0, blocks: [], version: ""}` has an integer
timestamp `0` and a string version `""`, yet the code (which tests JS
truthiness, not types) replaces both with the defaults. -/
theorem sanitize_preserve_counterexample :
    sanitizeContent 42 (fun _ => "")
        (.obj [("time", .num 0), ("blocks", .arr []), ("version", .str "")])
      = .obj [("time", .num 42), ("blocks", .arr []), ("version", .str "2.28.2")] :=
  rfl

/-- C8 (amended): for object input, `sanitize` preserves the original `time`
and `version` exactly when they are *truthy* (of any type), substituting the
defaults (the current time, `"2.28.2"`) when they are absent or falsy — so a
falsy integer timestamp `0` or empty version string is replaced, and a truthy
value of the wrong type is preserved; non-object input always gets the
defaults. -/
theorem sanitize_time_version (now : Int) (g : Nat → String) (c : JVal) :
    jsGet (sanitizeContent now g c) "time"
        = (if (truthy c && typeofObject c) = true then jsOr (jsGet c "time") (.num now)
           else .num now) ∧
    jsGet (sanitizeContent now g c) "version"
        = (if (truthy c && typeofObject c) = true then jsOr (jsGet c "version") (.str "2.28.2")
           else .str "2.28.2") := by
  unfold sanitizeContent validateAndCleanLessonContent
  by_cases hc : truthy c ∧ typeofObject c
  · rw [if_neg (by simpa using hc)]
    dsimp only
    have hc' : (truthy c && typeofObject c) = true := by simp [hc.1, hc.2]
    split
    · simp [hc']
    · simp [hc']
  · rw [if_pos hc]
    have hc' : (truthy c && typeofObject c) = false := by
      rcases not_and_or.mp hc with h | h <;> simp [Bool.eq_false_iff.mpr h]
    simp [hc']

/-! ## Claim C2 -/

/-- C2: every entry of `sanitize(x).blocks` is an object whose `type` is a
non-empty string and whose `data` is an object; no null or non-object entry
survives normalization. -/
theorem sanitized_blocks_invariant (now : Int) (g : Nat → String) (x b : JVal)
    (hb : b ∈ blocksOf (sanitizeContent now g x)) :
    isObjLit b ∧ (∃ s, jsGet b "type" = .str s ∧ s ≠ "") ∧ isObjLit (jsGet b "data") := by
  obtain ⟨j, raw, hj⟩ := mem_blocksOf_sanitize hb
  obtain ⟨idv, ty, pd, rfl, _, hty, hpd⟩ := processBlock_shape hj
  exact ⟨rfl, ⟨ty, by simp, hty⟩, by simpa using hpd⟩

/-- C2 (witness): the invariant evaluated on a one-block document. -/
theorem sanitized_blocks_invariant_witness :
    isObjLit (.obj [("id", .str "block_"), ("type", .str "quiz"), ("data", .obj [])]) ∧
    (∃ s, jsGet (.obj [("id", .str "block_"), ("type", .str "quiz"), ("data", .obj [])]) "type"
        = .str s ∧ s ≠ "") ∧
    isObjLit (jsGet (.obj [("id", .str "block_"), ("type", .str "quiz"), ("data", .obj [])]) "data") :=
  sanitized_blocks_invariant 5 (fun _ => "")
    (.obj [("blocks", .arr [.obj [("type", .str "quiz")]])])
    (.obj [("id", .str "block_"), ("type", .str "quiz"), ("data", .obj [])])
    (List.mem_singleton.mpr rfl)

/-! ## Claim C10 -/

open JVal in
theorem repairData_of_not_mem {ty : String} (h : ty ∉ repairTypes) (dat pd : JVal) :
    repairData ty dat pd = pd := by
  simp only [repairTypes, List.mem_cons, List.not_mem_nil, or_false, not_or] at h
  obtain ⟨h1, h2, h3, h4, h5, h6, h7, h8, h9⟩ := h
  simp [repairData, h1, h2, h3, h4, h5, h6, h7, h8, h9]

/-- C10: every block of `sanitize(x).blocks` has exactly the three top-level
fields `id`, `type`, `data` (any other raw top-level field, e.g. `tunes` or
`meta`, is discarded), and for a block whose final type is outside the known
repair set the `data` payload is carried over as the shallow copy (object
spread) of the raw block's (object) `data`. -/
theorem sanitized_block_fields (now : Int) (g : Nat → String) (j : Nat)
    (xc raw b : JVal) :
    (b ∈ blocksOf (sanitizeContent now g xc) → objKeys b = ["id", "type", "data"]) ∧
    (processBlock g j raw = some b →
      truthy (jsGet raw "data") → typeofObject (jsGet raw "data") →
      asStr (jsGet b "type") ∉ repairTypes →
      jsGet b "data" = jsSpread (jsGet raw "data")) := by
  constructor
  · intro hb
    obtain ⟨i, raw', hj⟩ := mem_blocksOf_sanitize hb
    obtain ⟨idv, ty, pd, rfl, _, _, _⟩ := processBlock_shape hj
    rfl
  · intro hp hd1 hd2 hmem
    unfold processBlock at hp
    split at hp
    · exact absurd hp (by simp)
    · rw [Option.some.injEq] at hp
      subst hp
      have hbd : blockData raw = jsGet raw "data" := by
        unfold blockData
        rw [if_pos ⟨hd1, hd2⟩]
      have hm : blockType raw ∉ repairTypes := by
        simpa [asStr] using hmem
      rw [jsGet_block_data, repairData_of_not_mem hm, hbd]

/-- C10 (witness): a `quiz` block (outside the repair set) with extra
top-level fields `tunes`/`meta` reduces to exactly `{id, type, data}` with
the data payload spread-copied. -/
theorem sanitized_block_fields_witness :
    ((.obj [("id", .str "b1"), ("type", .str "quiz"), ("data", .obj [("q", .num 2)])] : JVal)
        ∈ blocksOf (sanitizeContent 5 (fun _ => "")
          (.obj [("blocks", .arr [.obj [("id", .str "b1"), ("tunes", .num 1),
            ("type", .str "quiz"), ("meta", .num 4), ("data", .obj [("q", .num 2)])]])]))
      → objKeys (.obj [("id", .str "b1"), ("type", .str "quiz"), ("data", .obj [("q", .num 2)])])
          = ["id", "type", "data"]) ∧
    (processBlock (fun _ => "") 0
        (.obj [("id", .str "b1"), ("tunes", .num 1), ("type", .str "quiz"),
          ("meta", .num 4), ("data", .obj [("q", .num 2)])])
        = some (.obj [("id", .str "b1"), ("type", .str "quiz"), ("data", .obj [("q", .num 2)])]) →
      truthy (jsGet (.obj [("id", .str "b1"), ("tunes", .num 1), ("type", .str "quiz"),
          ("meta", .num 4), ("data", .obj [("q", .num 2)])]) "data") →
      typeofObject (jsGet (.obj [("id", .str "b1"), ("tunes", .num 1), ("type", .str "quiz"),
          ("meta", .num 4), ("data", .obj [("q", .num 2)])]) "data") →
      asStr (jsGet (.obj [("id", .str "b1"), ("type", .str "quiz"), ("data", .obj [("q", .num 2)])])
          "type") ∉ repairTypes →
      jsGet (.obj [("id", .str "b1"), ("type", .str "quiz"), ("data", .obj [("q", .num 2)])]) "data"
        = jsSpread (jsGet (.obj [("id", .str "b1"), ("tunes", .num 1), ("type", .str "quiz"),
            ("meta", .num 4), ("data", .obj [("q", .num 2)])]) "data")) :=
  sanitized_block_fields 5 (fun _ => "") 0 _ _ _

/-! ## Claim C5 -/

/-- C5 (counterexample): the claim determines validity from the URL's *path*
extension / *host* allow-list; the code instead searches the whole URL for
the extension and domain as substrings.  `"https://example.com/page?x=.png"`
parses with path `/page` and host `example.com` — the spec predicate rejects
it, the code accepts it (the `.png` sits in the query string).  Moreover the
empty string is a string that fails URL parsing, yet its message is
`"URL is required"`, not `"Invalid URL format"`. -/
theorem classifyImage_counterexample :
    jsGet (validateImageUrl (.str "https://example.com/page?x=.png")) "isValid" = .bool true
    ∧ specImageValid "https://example.com/page?x=.png" = false
    ∧ jsGet (validateImageUrl (.str "")) "message" = .str "URL is required"
    ∧ parseURL "" = none :=
  ⟨rfl, by decide, rfl, by decide⟩

/-- C5 (amended): for every non-empty string, `classifyImage` returns
`isValid=true` iff the URL parses AND (the lowercased URL *contains* a known
image extension, OR the URL *contains* an allow-listed domain as a substring,
OR it starts with `data:image/`); every non-empty string that fails URL
parsing yields exactly the `Invalid URL format` result.  (Empty or non-string
input short-circuits to `URL is required`.)  No network access is involved:
the function is pure. -/
theorem classifyImage_amended (s : String) (hs : s ≠ "") :
    jsGet (validateImageUrl (.str s)) "isValid"
      = .bool ((parseURL s).isSome &&
          ((imageExtensions.any fun ext => strContains (lowerStr s) ext) ||
           (imageDomains.any fun d => strContains s d) ||
           strStartsWith s "data:image/")) ∧
    (parseURL s = none →
      validateImageUrl (.str s)
        = .obj [("isValid", .bool false), ("hasExtension", .bool false),
                ("isFromTrustedDomain", .bool false), ("isDataUrl", .bool false),
                ("message", .str "Invalid URL format")]) := by
  have htr : truthy (.str s) := by simpa [truthy] using hs
  have hcond : ¬¬(truthy (.str s) = true ∧ isStr (.str s) = true) := by
    simp [htr, isStr]
  cases hp : parseURL s with
  | none =>
    constructor
    · unfold validateImageUrl
      rw [if_neg hcond]
      simp only [asStr]
      rw [hp]
      rfl
    · intro _
      unfold validateImageUrl
      rw [if_neg hcond]
      simp only [asStr]
      rw [hp]
  | some u =>
    constructor
    · unfold validateImageUrl
      rw [if_neg hcond]
      simp only [asStr]
      rw [hp]
      simp [jsGet, objLookup, assocLookup]
    · intro h
      exact absurd h (by simp)

/-- C5 (witness): the amended theorem applied at `"not a url"`. -/
theorem classifyImage_amended_witness :
    jsGet (validateImageUrl (.str "not a url")) "isValid"
      = .bool ((parseURL "not a url").isSome &&
          ((imageExtensions.any fun ext => strContains (lowerStr "not a url") ext) ||
           (imageDomains.any fun d => strContains "not a url" d) ||
           strStartsWith "not a url" "data:image/")) ∧
    (parseURL "not a url" = none →
      validateImageUrl (.str "not a url")
        = .obj [("isValid", .bool false), ("hasExtension", .bool false),
                ("isFromTrustedDomain", .bool false), ("isDataUrl", .bool false),
                ("message", .str "Invalid URL format")]) :=
  classifyImage_amended "not a url" (by decide)

/-! ## Claim C6 -/

theorem opt_orElse_some {α : Type} {a b : Option α} {v : α}
    (h : (a <|> b) = some v) : a = some v ∨ b = some v := by
  cases a <;> simp_all

theorem ytGrab11_length {cs : List Char} {v : String} (h : ytGrab11 cs = some v) :
    v.length = 11 := by
  unfold ytGrab11 at h
  dsimp only at h
  split at h
  · rename_i hc
    rw [Option.some.injEq] at h
    subst h
    simpa [String.length] using hc.1
  · exact absurd h (by simp)

theorem ytAlt_length {p : String} {cs : List Char} {v : String}
    (h : ytAlt p cs = some v) : v.length = 11 := by
  unfold ytAlt at h
  split at h
  · exact ytGrab11_length h
  · exact absurd h (by simp)

/-- Every id the first YouTube pattern extracts has exactly eleven
characters. -/
theorem ytScanMain_length {cs : List Char} {v : String}
    (h : ytScanMain cs = some v) : v.length = 11 := by
  induction cs with
  | nil => simp [ytScanMain] at h
  | cons c rest ih =>
    unfold ytScanMain at h
    rcases opt_orElse_some h with h1 | h1
    · exact ytAlt_length h1
    rcases opt_orElse_some h1 with h2 | h2
    · exact ytAlt_length h2
    rcases opt_orElse_some h2 with h3 | h3
    · exact ytAlt_length h3
    · exact ih h3

/-- C6: for every URL that parses and matches one of the `watch?v=`,
`youtu.be/`, `embed/` alternatives with an eleven-character video id,
`classifyEmbed` returns `isValid=true`, `service="youtube"`, the extracted
`videoId`, the canonical embed URL `https://www.youtube.com/embed/<id>`, the
thumbnail URL, and the default dimensions 560×315. -/
theorem classifyEmbed_youtube (s vid : String)
    (hp : (parseURL s).isSome = true) (hm : ytScanMain s.data = some vid) :
    validateEmbedUrl (.str s)
      = .obj [("isValid", .bool true), ("service", .str "youtube"),
              ("embedUrl", .str ("https://www.youtube.com/embed/" ++ vid)),
              ("thumbnailUrl", .str ("https://img.youtube.com/vi/" ++ vid ++ "/maxresdefault.jpg")),
              ("videoId", .str vid), ("originalUrl", .str s),
              ("width", .num 560), ("height", .num 315)]
    ∧ vid.length = 11 := by
  have hs : s ≠ "" := by
    intro h
    subst h
    simp [show ("" : String).data = [] from rfl, ytScanMain] at hm
  have htr : truthy (.str s) := by simpa [truthy] using hs
  have hcond : ¬¬(truthy (.str s) = true ∧ isStr (.str s) = true) := by
    simp [htr, isStr]
  obtain ⟨u, hu⟩ := Option.isSome_iff_exists.mp hp
  refine ⟨?_, ytScanMain_length hm⟩
  have hyt : validateYouTubeUrl (.str s)
      = some { videoId := vid,
               embedUrl := "https://www.youtube.com/embed/" ++ vid,
               thumbnailUrl := "https://img.youtube.com/vi/" ++ vid ++ "/maxresdefault.jpg",
               originalUrl := s } := by
    unfold validateYouTubeUrl
    rw [if_neg hcond]
    simp only [asStr]
    unfold ytMatch
    rw [hm]
    rfl
  unfold validateEmbedUrl
  rw [if_neg hcond]
  simp only [asStr]
  rw [hu, hyt]

/-- C6 (witness): the theorem applied at the spec's concrete example URL. -/
theorem classifyEmbed_youtube_witness :
    validateEmbedUrl (.str "https://www.youtube.com/watch?v=dQw4w9WgXcQ")
      = .obj [("isValid", .bool true), ("service", .str "youtube"),
              ("embedUrl", .str ("https://www.youtube.com/embed/" ++ "dQw4w9WgXcQ")),
              ("thumbnailUrl", .str ("https://img.youtube.com/vi/" ++ "dQw4w9WgXcQ" ++ "/maxresdefault.jpg")),
              ("videoId", .str "dQw4w9WgXcQ"),
              ("originalUrl", .str "https://www.youtube.com/watch?v=dQw4w9WgXcQ"),
              ("width", .num 560), ("height", .num 315)]
    ∧ ("dQw4w9WgXcQ" : String).length = 11 :=
  classifyEmbed_youtube "https://www.youtube.com/watch?v=dQw4w9WgXcQ" "dQw4w9WgXcQ"
    (by decide) (by decide)

/-! ## Claim C4 -/

/-- C4 (counterexample): the claim says `validateStrict` fails closed on
missing `time`/`version` fields or on a block lacking a *string* `type` or an
*object* `data`.  The code checks none of that: on `{blocks:[{type: 5}]}` —
no `time`, no `version`, a numeric `type`, no `data` field at all — it
returns `isValid=true`. -/
theorem validateStrict_counterexample :
    validateLessonContent (.obj [("blocks", .arr [.obj [("type", .num 5)]])])
      = some { isValid := true, message := none }
    ∧ jsGet (.obj [("blocks", .arr [.obj [("type", .num 5)]])]) "time" = .undef
    ∧ jsGet (.obj [("blocks", .arr [.obj [("type", .num 5)]])]) "version" = .undef
    ∧ isStr (jsGet (.obj [("type", .num 5)]) "type") = false
    ∧ objLookup (.obj [("type", .num 5)]) "data" = none :=
  ⟨rfl, rfl, rfl, rfl, rfl⟩

open JVal in
theorem validateBlocksGo_ok_iff (i : Nat) (bs : List JVal) :
    validateBlocksGo i bs = some { isValid := true, message := none } ↔
      ∀ b ∈ bs, b ≠ .null ∧ b ≠ .undef ∧ truthy (jsGet b "type") := by
  induction bs generalizing i with
  | nil => simp [validateBlocksGo]
  | cons b t ih =>
    unfold validateBlocksGo
    cases b with
    | null => simp
    | undef => simp
    | bool x => by_cases hb : truthy (jsGet (JVal.bool x) "type") <;> simp [hb, ih]
    | num n => by_cases hb : truthy (jsGet (JVal.num n) "type") <;> simp [hb, ih]
    | str s => by_cases hb : truthy (jsGet (JVal.str s) "type") <;> simp [hb, ih]
    | arr xs => by_cases hb : truthy (jsGet (JVal.arr xs) "type") <;> simp [hb, ih]
    | obj fs => by_cases hb : truthy (jsGet (JVal.obj fs) "type") <;> simp [hb, ih]

open JVal in
theorem validateBlocksGo_first_violation (pre : List JVal) (b : JVal) (post : List JVal)
    (hpre : ∀ p ∈ pre, p ≠ .null ∧ p ≠ .undef ∧ truthy (jsGet p "type"))
    (hb1 : b ≠ .null) (hb2 : b ≠ .undef) (hb3 : ¬ truthy (jsGet b "type")) :
    ∀ i : Nat, validateBlocksGo i (pre ++ b :: post)
      = some { isValid := false,
               message := some ("Block " ++ toString (i + pre.length + 1)
                 ++ " is missing a type") } := by
  induction pre with
  | nil =>
    intro i
    unfold validateBlocksGo
    cases b <;> simp_all [hb3]
  | cons p pr ih =>
    intro i
    obtain ⟨hp1, hp2, hp3⟩ := hpre p (List.mem_cons_self _ _)
    have step : validateBlocksGo i ((p :: pr) ++ b :: post)
        = validateBlocksGo (i + 1) (pr ++ b :: post) := by
      rw [List.cons_append]
      conv_lhs => unfold validateBlocksGo
      cases p <;> simp_all [hp3]
    rw [step, ih (fun q hq => hpre q (List.mem_cons_of_mem _ hq))]
    have harith : i + 1 + pr.length + 1 = i + (pr.length + 1) + 1 := by omega
    simp [harith]

/-- C4 (amended): `validateStrict` returns `isValid=true` iff the content is
a truthy `typeof`-object whose `blocks` field is a (truthy) array and every
entry has a truthy `type` field — it checks nothing about `time`, `version`,
`data`, or about `type` being a string.  When the first offending entry (all
earlier entries fine, itself not nullish) merely has a falsy `type`, the
result reports that first violation in block order as
`Block <index+1> is missing a type`; a nullish entry makes the loop throw. -/
theorem validateStrict_characterization (c : JVal) :
    (validateLessonContent c = some { isValid := true, message := none } ↔
      (truthy c ∧ typeofObject c ∧ truthy (jsGet c "blocks") ∧ isArr (jsGet c "blocks") ∧
        ∀ b ∈ blocksOf c, b ≠ .null ∧ b ≠ .undef ∧ truthy (jsGet b "type"))) ∧
    (∀ pre b post, blocksOf c = pre ++ b :: post →
      truthy c → typeofObject c → truthy (jsGet c "blocks") → isArr (jsGet c "blocks") →
      (∀ p ∈ pre, p ≠ .null ∧ p ≠ .undef ∧ truthy (jsGet p "type")) →
      b ≠ .null → b ≠ .undef → ¬ truthy (jsGet b "type") →
      validateLessonContent c
        = some { isValid := false,
                 message := some ("Block " ++ toString (pre.length + 1)
                   ++ " is missing a type") }) := by
  constructor
  · unfold validateLessonContent
    split
    · rename_i hc
      rw [not_and_or] at hc
      constructor
      · intro h
        exact absurd h (by simp)
      · rintro ⟨h1, h2, -⟩
        rcases hc with hc | hc <;> simp_all
    · rename_i hc
      rw [not_not] at hc
      dsimp only
      split
      · rename_i hbl
        rw [not_and_or] at hbl
        constructor
        · intro h
          exact absurd h (by simp)
        · rintro ⟨-, -, h3, h4, -⟩
          rcases hbl with hbl | hbl <;> simp_all
      · rename_i hbl
        rw [not_not] at hbl
        rw [validateBlocksGo_ok_iff]
        cases hb : jsGet c "blocks" with
        | arr xs =>
          have h1 : truthy (JVal.arr xs) = true := rfl
          have h2 : isArr (JVal.arr xs) = true := rfl
          simp [hc.1, hc.2, hbl.1, hbl.2, blocksOf, hb, h1, h2]
        | undef => exact absurd hbl.2 (by simp [hb, isArr])
        | null => exact absurd hbl.2 (by simp [hb, isArr])
        | bool x => exact absurd hbl.2 (by simp [hb, isArr])
        | num n => exact absurd hbl.2 (by simp [hb, isArr])
        | str t => exact absurd hbl.2 (by simp [hb, isArr])
        | obj fs => exact absurd hbl.2 (by simp [hb, isArr])
  · intro pre b post hsplit h1 h2 h3 h4 hpre hb1 hb2 hb3
    unfold validateLessonContent
    rw [if_neg (by simp [h1, h2])]
    dsimp only
    rw [if_neg (by simp [h3, h4])]
    cases hb : jsGet c "blocks" with
    | arr xs =>
      have hxs : xs = pre ++ b :: post := by
        simpa [blocksOf, hb] using hsplit
      rw [hxs]
      simpa using validateBlocksGo_first_violation pre b post hpre hb1 hb2 hb3 0
    | undef => exact absurd h4 (by simp [hb, isArr])
    | null => exact absurd h4 (by simp [hb, isArr])
    | bool x => exact absurd h4 (by simp [hb, isArr])
    | num n => exact absurd h4 (by simp [hb, isArr])
    | str t => exact absurd h4 (by simp [hb, isArr])
    | obj fs => exact absurd h4 (by simp [hb, isArr])

/-- C4 (witness): for `{blocks:[{type:"a"}, {type:""}]}` the characterization
gives the violation report for the second block. -/
theorem validateStrict_characterization_witness :
    validateLessonContent
        (.obj [("blocks", .arr [.obj [("type", .str "a")], .obj [("type", .str "")]])])
      = some { isValid := false, message := some "Block 2 is missing a type" } := by
  have h := (validateStrict_characterization
    (.obj [("blocks", .arr [.obj [("type", .str "a")], .obj [("type", .str "")]])])).2
    [.obj [("type", .str "a")]] (.obj [("type", .str "")]) []
    rfl rfl rfl rfl rfl
    (by
      intro p hp
      rcases List.mem_singleton.mp hp with rfl
      exact ⟨by simp, by simp, by decide⟩)
    (by simp) (by simp) (by decide)
  simpa using h

/-! ## Claim C9 -/

theorem foldl_max_le (l : List Int) (a : Int) :
    a ≤ l.foldl max a ∧ ∀ x ∈ l, x ≤ l.foldl max a := by
  induction l generalizing a with
  | nil => simp
  | cons b t ih =>
    refine ⟨?_, ?_⟩
    · calc a ≤ max a b := le_max_left _ _
        _ ≤ t.foldl max (max a b) := (ih (max a b)).1
    · intro x hx
      rcases List.mem_cons.mp hx with rfl | hx
      · calc x ≤ max a x := le_max_right _ _
          _ ≤ t.foldl max (max a x) := (ih (max a x)).1
      · exact (ih (max a b)).2 x hx

theorem foldl_max_mem (l : List Int) (a : Int) :
    l.foldl max a = a ∨ l.foldl max a ∈ l := by
  induction l generalizing a with
  | nil => simp
  | cons b t ih =>
    simp only [List.foldl_cons]
    rcases ih (max a b) with h | h
    · rcases max_choice a b with hm | hm
      · left
        rw [h, hm]
      · right
        rw [h, hm]
        exact List.mem_cons_self _ _
    · right
      exact List.mem_cons_of_mem _ h

/-- C9: duplicating any existing lesson appends a new lesson in the same
tutorial whose `isPublished` flag is false, whose content is the sanitized
copy of the original's content, and whose order is (the maximum order among
the tutorial's lessons) + 1 — the "or 1" branch is unreachable when the
original exists, since the original itself belongs to the tutorial. -/
theorem duplicateLesson_spec (now : Int) (genId : Nat → String) (db : List LessonRec)
    (lessonId newId : Nat) (orig : LessonRec)
    (h : findLessonById db lessonId = some orig) :
    ∃ dup m, duplicateLesson now genId db lessonId newId = some (db ++ [dup]) ∧
      dup.isPublished = false ∧
      dup.tutorial = orig.tutorial ∧
      dup.content = sanitizeContent now genId orig.content ∧
      dup.order = m + 1 ∧
      (∀ l ∈ db, l.tutorial = orig.tutorial → l.order ≤ m) ∧
      (∃ l ∈ db, l.tutorial = orig.tutorial ∧ l.order = m) := by
  have horig_mem : orig ∈ db := List.mem_of_find?_eq_some h
  have horig_filter : orig ∈ db.filter fun l => l.tutorial == orig.tutorial :=
    List.mem_filter.mpr ⟨horig_mem, by simp⟩
  cases hmax : maxOrderIn db orig.tutorial with
  | none =>
    exfalso
    unfold maxOrderIn at hmax
    have : orig.order ∈ (db.filter fun l => l.tutorial == orig.tutorial).map
        (fun l => l.order) := List.mem_map_of_mem _ horig_filter
    cases hl : (db.filter fun l => l.tutorial == orig.tutorial).map (fun l => l.order) with
    | nil => rw [hl] at this; exact absurd this (List.not_mem_nil _)
    | cons o os => rw [hl] at hmax; exact Option.noConfusion hmax
  | some m =>
    refine ⟨{ id := newId, tutorial := orig.tutorial, title := orig.title ++ " (Copy)",
              order := m + 1, duration := orig.duration,
              content := sanitizeContent now genId orig.content, isPublished := false },
            m, ?_, rfl, rfl, rfl, rfl, ?_, ?_⟩
    · simp only [duplicateLesson, h, hmax]
    · -- every lesson of the tutorial has order ≤ m
      intro l hl hlt
      have hlf : l ∈ db.filter fun l' => l'.tutorial == orig.tutorial :=
        List.mem_filter.mpr ⟨hl, by simp [hlt]⟩
      have hlm : l.order ∈ (db.filter fun l' => l'.tutorial == orig.tutorial).map
          (fun l' => l'.order) := List.mem_map_of_mem _ hlf
      unfold maxOrderIn at hmax
      cases hll : (db.filter fun l' => l'.tutorial == orig.tutorial).map (fun l' => l'.order) with
      | nil => rw [hll] at hlm; exact absurd hlm (List.not_mem_nil _)
      | cons o os =>
        rw [hll] at hmax hlm
        rw [Option.some.injEq] at hmax
        subst hmax
        rcases List.mem_cons.mp hlm with rfl | hlm
        · exact (foldl_max_le os l.order).1
        · exact (foldl_max_le os o).2 _ hlm
    · -- m is attained
      unfold maxOrderIn at hmax
      cases hll : (db.filter fun l' => l'.tutorial == orig.tutorial).map (fun l' => l'.order) with
      | nil => rw [hll] at hmax; exact Option.noConfusion hmax
      | cons o os =>
        rw [hll] at hmax
        rw [Option.some.injEq] at hmax
        have hmem : m ∈ o :: os := by
          rcases foldl_max_mem os o with h' | h'
          · rw [← hmax, h']
            exact List.mem_cons_self _ _
          · rw [← hmax]
            exact List.mem_cons_of_mem _ h'
        rw [← hll] at hmem
        obtain ⟨l, hlf, hlo⟩ := List.mem_map.mp hmem
        obtain ⟨hldb, hlt⟩ := List.mem_filter.mp hlf
        exact ⟨l, hldb, by simpa using hlt, hlo⟩

/-- C9 (witness): duplicating lesson 1 in a two-lesson tutorial (orders 1 and
5) appends an unpublished copy with order 6. -/
theorem duplicateLesson_spec_witness :
    ∃ dup m, duplicateLesson 9 (fun _ => "")
        [ { id := 1, tutorial := 7, title := "A", order := 1, duration := 3,
            content := .null, isPublished := true },
          { id := 2, tutorial := 7, title := "B", order := 5, duration := 4,
            content := .null, isPublished := false } ] 1 3
      = some ([ { id := 1, tutorial := 7, title := "A", order := 1, duration := 3,
                  content := .null, isPublished := true },
                { id := 2, tutorial := 7, title := "B", order := 5, duration := 4,
                  content := .null, isPublished := false } ] ++ [dup]) ∧
      dup.isPublished = false ∧
      dup.tutorial = 7 ∧
      dup.content = sanitizeContent 9 (fun _ => "") .null ∧
      dup.order = m + 1 ∧
      (∀ l ∈ [ ({ id := 1, tutorial := 7, title := "A", order := 1, duration := 3,
                  content := .null, isPublished := true } : LessonRec),
               { id := 2, tutorial := 7, title := "B", order := 5, duration := 4,
                  content := .null, isPublished := false } ],
        l.tutorial = 7 → l.order ≤ m) ∧
      (∃ l ∈ [ ({ id := 1, tutorial := 7, title := "A", order := 1, duration := 3,
                  content := .null, isPublished := true } : LessonRec),
               { id := 2, tutorial := 7, title := "B", order := 5, duration := 4,
                  content := .null, isPublished := false } ],
        l.tutorial = 7 ∧ l.order = m) :=
  duplicateLesson_spec 9 (fun _ => "")
    [ { id := 1, tutorial := 7, title := "A", order := 1, duration := 3,
        content := .null, isPublished := true },
      { id := 2, tutorial := 7, title := "B", order := 5, duration := 4,
        content := .null, isPublished := false } ] 1 3
    { id := 1, tutorial := 7, title := "A", order := 1, duration := 3,
      content := .null, isPublished := true } rfl

/-! ## Claim C7 -/

theorem renderBlocksHTML_append_some {xs ys : List JVal} {s1 s2 : String}
    (h1 : renderBlocksHTML xs = some s1) (h2 : renderBlocksHTML ys = some s2) :
    renderBlocksHTML (xs ++ ys) = some (s1 ++ s2) := by
  induction xs generalizing s1 with
  | nil =>
    simp only [renderBlocksHTML, Option.some.injEq] at h1
    subst h1
    simpa [String.empty_append] using h2
  | cons b t ih =>
    unfold renderBlocksHTML at h1
    cases hb : renderBlockHTML b with
    | none => rw [hb] at h1; simp at h1
    | some sb =>
      rw [hb] at h1
      cases ht : renderBlocksHTML t with
      | none => rw [ht] at h1; simp at h1
      | some st =>
        rw [ht] at h1
        simp at h1
        subst h1
        rw [List.cons_append]
        conv_lhs => unfold renderBlocksHTML
        rw [hb, ih ht]
        simp [String.append_assoc]

open JVal in
/-- An image block whose data carries a truthy `invalid` renders to the empty
string regardless of its other fields. -/
theorem renderBlockHTML_invalid_image (idv dat : JVal)
    (hinv : truthy (jsGet dat "invalid")) :
    renderBlockHTML (.obj [("id", idv), ("type", .str "image"), ("data", dat)]) = some "" := by
  unfold renderBlockHTML
  simp only [jsGet_block_type, jsGet_block_data]
  rw [if_neg (by simp [truthy])]
  rw [if_neg (by decide), if_neg (by decide), if_neg (by decide), if_neg (by decide),
    if_neg (by decide), if_pos (by decide)]
  rw [if_neg (by simp [hinv])]

/-- C7: `renderHTML` renders blocks in exactly `blocks`-array order — the
body is the concatenation of the surrounding blocks' renderings in their
original order — and an image block whose data has `invalid=true` contributes
nothing: the document with the invalid image block renders identically to the
document with that block removed. -/
theorem renderHTML_order_invalid_image (ti : String) (du : Int) (tu : String)
    (t v idv dat : JVal) (pre post : List JVal) (s1 s2 : String)
    (hinv : truthy (jsGet dat "invalid"))
    (h1 : renderBlocksHTML pre = some s1) (h2 : renderBlocksHTML post = some s2) :
    generateHTMLFromLesson
        { title := ti, duration := du, tutorialTitle := tu,
          content := .obj [("time", t),
            ("blocks", .arr (pre ++ .obj [("id", idv), ("type", .str "image"), ("data", dat)] :: post)),
            ("version", v)] }
      = some (htmlHead ti du tu ++ (s1 ++ s2) ++ htmlTail) ∧
    generateHTMLFromLesson
        { title := ti, duration := du, tutorialTitle := tu,
          content := .obj [("time", t), ("blocks", .arr (pre ++ post)), ("version", v)] }
      = some (htmlHead ti du tu ++ (s1 ++ s2) ++ htmlTail) := by
  have himg : renderBlocksHTML
      (JVal.obj [("id", idv), ("type", .str "image"), ("data", dat)] :: post) = some s2 := by
    unfold renderBlocksHTML
    rw [renderBlockHTML_invalid_image idv dat hinv, h2]
    simp [String.empty_append]
  constructor
  · unfold generateHTMLFromLesson
    rw [if_pos (by simp [truthy])]
    simp only [jsGet_doc_blocks]
    rw [renderBlocksHTML_append_some h1 himg]
    rfl
  · unfold generateHTMLFromLesson
    rw [if_pos (by simp [truthy])]
    simp only [jsGet_doc_blocks]
    rw [renderBlocksHTML_append_some h1 h2]
    rfl

/-- C7 (witness): a paragraph followed by an invalid image renders exactly as
the paragraph alone. -/
theorem renderHTML_order_invalid_image_witness :
    generateHTMLFromLesson
        { title := "T", duration := 2, tutorialTitle := "Tut",
          content := .obj [("time", .num 1),
            ("blocks", .arr
              ([.obj [("id", .str "p1"), ("type", .str "paragraph"),
                      ("data", .obj [("text", .str "hi")])]] ++
                .obj [("id", .str "i1"), ("type", .str "image"),
                      ("data", .obj [("invalid", .bool true)])] :: [])),
            ("version", .str "2.28.2")] }
      = some (htmlHead "T" 2 "Tut" ++ ("<p>hi</p>" ++ "") ++ htmlTail) ∧
    generateHTMLFromLesson
        { title := "T", duration := 2, tutorialTitle := "Tut",
          content := .obj [("time", .num 1),
            ("blocks", .arr
              ([.obj [("id", .str "p1"), ("type", .str "paragraph"),
                      ("data", .obj [("text", .str "hi")])]] ++ [])),
            ("version", .str "2.28.2")] }
      = some (htmlHead "T" 2 "Tut" ++ ("<p>hi</p>" ++ "") ++ htmlTail) :=
  renderHTML_order_invalid_image "T" 2 "Tut" (.num 1) (.str "2.28.2") (.str "i1")
    (.obj [("invalid", .bool true)])
    [.obj [("id", .str "p1"), ("type", .str "paragraph"), ("data", .obj [("text", .str "hi")])]]
    [] "<p>hi</p>" "" (by decide) (by decide) (by decide)

/-! ## Claim C1 — idempotence of the sanitizer

For each switch case `repairX` we show that a first pass's output is a fixed
point of a second pass.  `pd0` stands for `{...block.data}`: an object that
reads equal to `dat` on every key (in the first pass it is `jsSpread dat`);
after the first pass the second pass runs with both arguments equal to the
first pass's output. -/

namespace JVal

@[simp] theorem jsOr_self (a : JVal) : jsOr a a = a := by
  by_cases h : truthy a
  · exact jsOr_of_truthy _ h
  · exact jsOr_of_falsy _ h

theorem jsGet_of_objLookup {p : JVal} {k : String} {v : JVal}
    (h : objLookup p k = some v) : jsGet p k = v := by
  simp [jsGet, h]

theorem truthy_of_objLit {p : JVal} (h : isObjLit p) : truthy p := by
  cases p <;> simp_all [isObjLit, truthy]

theorem typeofObject_of_objLit {p : JVal} (h : isObjLit p) : typeofObject p := by
  cases p <;> simp_all [isObjLit, typeofObject]

end JVal

open JVal in
theorem repairHeader_idem {dat pd0 : JVal} (hobj : isObjLit pd0)
    (hget : ∀ k, jsGet pd0 k = jsGet dat k) :
    repairHeader (repairHeader dat pd0) (repairHeader dat pd0) = repairHeader dat pd0 := by
  by_cases hc : truthy (jsGet dat "level") = true ∧
      (jsLtI (jsGet dat "level") 1 = true ∨ jsGtI (jsGet dat "level") 6 = true)
  · have hP : repairHeader dat pd0 = objSet pd0 "level" (.num 2) := by
      unfold repairHeader
      rw [if_pos hc]
    rw [hP]
    unfold repairHeader
    rw [if_neg (by rw [jsGet_objSet_self hobj]; decide)]
  · have hP : repairHeader dat pd0 = pd0 := by
      unfold repairHeader
      rw [if_neg hc]
    rw [hP]
    unfold repairHeader
    rw [hget "level", if_neg hc]

open JVal in
theorem repairList_idem {dat pd0 : JVal} (hobj : isObjLit pd0)
    (hget : ∀ k, jsGet pd0 k = jsGet dat k) :
    repairList (repairList dat pd0) (repairList dat pd0) = repairList dat pd0 := by
  have hvalid : styleIsValid (.str "unordered") = true := by decide
  have harr : isArr (.arr ([] : List JVal)) = true := rfl
  by_cases hs : styleIsValid (jsGet dat "style") = true <;>
    by_cases hi : isArr (jsGet dat "items") = true
  · have hP : repairList dat pd0 = pd0 := by
      unfold repairList
      dsimp only
      rw [if_neg (show ¬¬(styleIsValid (jsGet dat "style") = true) from by simp [hs]),
        if_neg (show ¬¬(isArr (jsGet dat "items") = true) from by simp [hi])]
    rw [hP]
    unfold repairList
    dsimp only
    rw [hget "style", hget "items",
      if_neg (show ¬¬(styleIsValid (jsGet dat "style") = true) from by simp [hs]),
      if_neg (show ¬¬(isArr (jsGet dat "items") = true) from by simp [hi])]
  · have hP : repairList dat pd0 = objSet pd0 "items" (.arr []) := by
      unfold repairList
      dsimp only
      rw [if_neg (show ¬¬(styleIsValid (jsGet dat "style") = true) from by simp [hs]),
        if_pos (show ¬(isArr (jsGet dat "items") = true) from hi)]
    rw [hP]
    have hgs : jsGet (objSet pd0 "items" (.arr [])) "style" = jsGet dat "style" := by
      rw [jsGet_objSet_ne _ (by decide), hget "style"]
    have hgi : jsGet (objSet pd0 "items" (.arr [])) "items" = .arr [] :=
      jsGet_objSet_self hobj _ _
    unfold repairList
    dsimp only
    rw [hgs, hgi,
      if_neg (show ¬¬(styleIsValid (jsGet dat "style") = true) from by simp [hs]),
      if_neg (show ¬¬(isArr (JVal.arr [] : JVal) = true) from by simp [harr])]
  · have hP : repairList dat pd0 = objSet pd0 "style" (.str "unordered") := by
      unfold repairList
      dsimp only
      rw [if_pos (show ¬(styleIsValid (jsGet dat "style") = true) from hs),
        if_neg (show ¬¬(isArr (jsGet dat "items") = true) from by simp [hi])]
    rw [hP]
    have hgs : jsGet (objSet pd0 "style" (.str "unordered")) "style" = .str "unordered" :=
      jsGet_objSet_self hobj _ _
    have hgi : jsGet (objSet pd0 "style" (.str "unordered")) "items" = jsGet dat "items" := by
      rw [jsGet_objSet_ne _ (by decide), hget "items"]
    unfold repairList
    dsimp only
    rw [hgs, hgi,
      if_neg (show ¬¬(styleIsValid (JVal.str "unordered") = true) from by simp [hvalid]),
      if_neg (show ¬¬(isArr (jsGet dat "items") = true) from by simp [hi])]
  · have hP : repairList dat pd0
        = objSet (objSet pd0 "style" (.str "unordered")) "items" (.arr []) := by
      unfold repairList
      dsimp only
      rw [if_pos (show ¬(styleIsValid (jsGet dat "style") = true) from hs),
        if_pos (show ¬(isArr (jsGet dat "items") = true) from hi)]
    rw [hP]
    have hgs : jsGet (objSet (objSet pd0 "style" (.str "unordered")) "items" (.arr []))
        "style" = .str "unordered" := by
      rw [jsGet_objSet_ne _ (by decide)]
      exact jsGet_objSet_self hobj _ _
    have hgi : jsGet (objSet (objSet pd0 "style" (.str "unordered")) "items" (.arr []))
        "items" = .arr [] :=
      jsGet_objSet_self (isObjLit_objSet hobj _ _) _ _
    unfold repairList
    dsimp only
    rw [hgs, hgi,
      if_neg (show ¬¬(styleIsValid (JVal.str "unordered") = true) from by simp [hvalid]),
      if_neg (show ¬¬(isArr (JVal.arr [] : JVal) = true) from by simp [harr])]

open JVal in
theorem repairCode_idem {dat pd0 : JVal} (hobj : isObjLit pd0)
    (hget : ∀ k, jsGet pd0 k = jsGet dat k) :
    repairCode (repairCode dat pd0) (repairCode dat pd0) = repairCode dat pd0 := by
  unfold repairCode
  have hlc : objLookup (objSet (objSet pd0 "code" (jsOr (jsGet dat "code") (.str "")))
      "language" (jsOr (jsGet dat "language") (.str "javascript"))) "code"
      = some (jsOr (jsGet dat "code") (.str "")) := by
    rw [objLookup_objSet_ne _ (by decide)]
    exact objLookup_objSet_self hobj _ _
  have hll : objLookup (objSet (objSet pd0 "code" (jsOr (jsGet dat "code") (.str "")))
      "language" (jsOr (jsGet dat "language") (.str "javascript"))) "language"
      = some (jsOr (jsGet dat "language") (.str "javascript")) :=
    objLookup_objSet_self (isObjLit_objSet hobj _ _) _ _
  rw [jsGet_of_objLookup hlc, jsGet_of_objLookup hll, jsOr_absorb, jsOr_absorb,
    objSet_of_lookup hlc, objSet_of_lookup hll]

open JVal in
theorem repairQuote_idem {dat pd0 : JVal} (hobj : isObjLit pd0)
    (hget : ∀ k, jsGet pd0 k = jsGet dat k) :
    repairQuote (repairQuote dat pd0) (repairQuote dat pd0) = repairQuote dat pd0 := by
  unfold repairQuote
  dsimp only
  have h1 : isObjLit (objSet pd0 "text" (jsOr (jsGet dat "text") (.str ""))) :=
    isObjLit_objSet hobj _ _
  have h2 : isObjLit (objSet (objSet pd0 "text" (jsOr (jsGet dat "text") (.str "")))
      "caption" (jsOr (jsGet dat "caption") (.str ""))) := isObjLit_objSet h1 _ _
  have hlt : objLookup (objSet (objSet (objSet pd0 "text" (jsOr (jsGet dat "text") (.str "")))
      "caption" (jsOr (jsGet dat "caption") (.str "")))
      "alignment" (jsOr (jsGet dat "alignment") (.str "left"))) "text"
      = some (jsOr (jsGet dat "text") (.str "")) := by
    rw [objLookup_objSet_ne _ (by decide), objLookup_objSet_ne _ (by decide)]
    exact objLookup_objSet_self hobj _ _
  have hlc : objLookup (objSet (objSet (objSet pd0 "text" (jsOr (jsGet dat "text") (.str "")))
      "caption" (jsOr (jsGet dat "caption") (.str "")))
      "alignment" (jsOr (jsGet dat "alignment") (.str "left"))) "caption"
      = some (jsOr (jsGet dat "caption") (.str "")) := by
    rw [objLookup_objSet_ne _ (by decide)]
    exact objLookup_objSet_self h1 _ _
  have hla : objLookup (objSet (objSet (objSet pd0 "text" (jsOr (jsGet dat "text") (.str "")))
      "caption" (jsOr (jsGet dat "caption") (.str "")))
      "alignment" (jsOr (jsGet dat "alignment") (.str "left"))) "alignment"
      = some (jsOr (jsGet dat "alignment") (.str "left")) :=
    objLookup_objSet_self h2 _ _
  rw [jsGet_of_objLookup hlt, jsGet_of_objLookup hlc, jsGet_of_objLookup hla,
    jsOr_absorb, jsOr_absorb, jsOr_absorb,
    objSet_of_lookup hlt, objSet_of_lookup hlc, objSet_of_lookup hla]

open JVal in
theorem repairWarning_idem {dat pd0 : JVal} (hobj : isObjLit pd0)
    (hget : ∀ k, jsGet pd0 k = jsGet dat k) :
    repairWarning (repairWarning dat pd0) (repairWarning dat pd0) = repairWarning dat pd0 := by
  unfold repairWarning
  have hlt : objLookup (objSet (objSet pd0 "title" (jsOr (jsGet dat "title") (.str "Warning")))
      "message" (jsOr (jsGet dat "message") (.str ""))) "title"
      = some (jsOr (jsGet dat "title") (.str "Warning")) := by
    rw [objLookup_objSet_ne _ (by decide)]
    exact objLookup_objSet_self hobj _ _
  have hlm : objLookup (objSet (objSet pd0 "title" (jsOr (jsGet dat "title") (.str "Warning")))
      "message" (jsOr (jsGet dat "message") (.str ""))) "message"
      = some (jsOr (jsGet dat "message") (.str "")) :=
    objLookup_objSet_self (isObjLit_objSet hobj _ _) _ _
  rw [jsGet_of_objLookup hlt, jsGet_of_objLookup hlm, jsOr_absorb, jsOr_absorb,
    objSet_of_lookup hlt, objSet_of_lookup hlm]

open JVal in
theorem repairTable_idem {dat pd0 : JVal} (hobj : isObjLit pd0)
    (hget : ∀ k, jsGet pd0 k = jsGet dat k) :
    repairTable (repairTable dat pd0) (repairTable dat pd0) = repairTable dat pd0 := by
  have harr : isArr (.arr [JVal.arr [.str ""]]) = true := rfl
  by_cases hc : isArr (jsGet dat "content") = true
  · have hP : repairTable dat pd0
        = objSet pd0 "withHeadings" (jsOr (jsGet dat "withHeadings") (.bool false)) := by
      unfold repairTable
      dsimp only
      rw [if_neg (show ¬¬(isArr (jsGet dat "content") = true) from by simp [hc])]
    rw [hP]
    have hgc : jsGet (objSet pd0 "withHeadings" (jsOr (jsGet dat "withHeadings") (.bool false)))
        "content" = jsGet dat "content" := by
      rw [jsGet_objSet_ne _ (by decide), hget "content"]
    have hlw : objLookup (objSet pd0 "withHeadings"
        (jsOr (jsGet dat "withHeadings") (.bool false))) "withHeadings"
        = some (jsOr (jsGet dat "withHeadings") (.bool false)) :=
      objLookup_objSet_self hobj _ _
    unfold repairTable
    dsimp only
    rw [hgc, if_neg (show ¬¬(isArr (jsGet dat "content") = true) from by simp [hc]),
      jsGet_of_objLookup hlw, jsOr_absorb, objSet_of_lookup hlw]
  · have hP : repairTable dat pd0
        = objSet (objSet pd0 "content" (.arr [.arr [.str ""]]))
            "withHeadings" (jsOr (jsGet dat "withHeadings") (.bool false)) := by
      unfold repairTable
      dsimp only
      rw [if_pos (show ¬(isArr (jsGet dat "content") = true) from hc)]
    rw [hP]
    have hgc : jsGet (objSet (objSet pd0 "content" (.arr [.arr [.str ""]]))
        "withHeadings" (jsOr (jsGet dat "withHeadings") (.bool false))) "content"
        = .arr [.arr [.str ""]] := by
      rw [jsGet_objSet_ne _ (by decide)]
      exact jsGet_objSet_self hobj _ _
    have hlw : objLookup (objSet (objSet pd0 "content" (.arr [.arr [.str ""]]))
        "withHeadings" (jsOr (jsGet dat "withHeadings") (.bool false))) "withHeadings"
        = some (jsOr (jsGet dat "withHeadings") (.bool false)) :=
      objLookup_objSet_self (isObjLit_objSet hobj _ _) _ _
    unfold repairTable
    dsimp only
    rw [hgc,
      if_neg (show ¬¬(isArr (JVal.arr [JVal.arr [JVal.str ""]] : JVal) = true) from by
        simp [harr]),
      jsGet_of_objLookup hlw, jsOr_absorb, objSet_of_lookup hlw]

namespace JVal

theorem assocLookup_set (l : List (String × JVal)) (k' k : String) (v : JVal) :
    assocLookup (assocSet l k' v) k = if k = k' then some v else assocLookup l k := by
  by_cases h : k = k'
  · subst h
    simp [assocLookup_set_self]
  · simp [h, assocLookup_set_ne _ _ h]

theorem assocSet_eq_self {l : List (String × JVal)} {k : String} {v : JVal}
    (h : assocLookup l k = some v) : assocSet l k v = l :=
  assocSet_of_lookup h

/-- `a || ((a || (b || c)) || c) = a || (b || c)` — the shape produced by
re-running the `width`/`height` defaulting of the embed branch on its own
output. -/
theorem jsOr_or_absorb (a b c : JVal) :
    jsOr a (jsOr (jsOr a (jsOr b c)) c) = jsOr a (jsOr b c) := by
  by_cases ha : truthy a
  · rw [jsOr_of_truthy _ ha, jsOr_of_truthy _ ha]
  · rw [jsOr_of_falsy _ ha, jsOr_of_falsy _ ha, jsOr_absorb]

end JVal

open JVal in
/-- A valid embed classification carries the original URL (a non-empty, hence
truthy, string) and truthy default dimensions. -/
theorem validateEmbedUrl_valid {u : JVal}
    (h : truthy (jsGet (validateEmbedUrl u) "isValid") = true) :
    jsGet (validateEmbedUrl u) "originalUrl" = u ∧ truthy u = true ∧
    truthy (jsGet (validateEmbedUrl u) "width") = true ∧
    truthy (jsGet (validateEmbedUrl u) "height") = true := by
  by_cases hs : truthy u = true ∧ isStr u = true
  · obtain ⟨hu, hstr⟩ := hs
    cases u <;> simp [isStr] at hstr
    rename_i s
    unfold validateEmbedUrl at h ⊢
    rw [if_neg (show ¬¬(truthy (JVal.str s) = true ∧ isStr (JVal.str s) = true) from by
      simp [hu, isStr])] at h ⊢
    dsimp only at h ⊢
    simp only [asStr] at h ⊢
    cases hp : parseURL s with
    | none =>
      rw [hp] at h
      dsimp only at h
      simp [jsGet, objLookup, assocLookup, truthy] at h
    | some ur =>
      rw [hp] at h
      dsimp only at h
      cases hyt : validateYouTubeUrl (.str s) with
      | some yt =>
        exact ⟨rfl, hu, rfl, rfl⟩
      | none =>
        rw [hyt] at h
        dsimp only at h
        cases hv : vimeoScan s.data with
        | some vid =>
          exact ⟨rfl, hu, rfl, rfl⟩
        | none =>
          rw [hv] at h
          dsimp only at h
          cases hcp : codepenScan s.data with
          | some up =>
            exact ⟨rfl, hu, rfl, rfl⟩
          | none =>
            rw [hcp] at h
            dsimp only at h
            by_cases hti : (trustedEmbedDomains.any fun t => strContains ur.host t) = true
            · refine ⟨?_, hu, ?_, ?_⟩ <;>
                · dsimp only
                  rw [if_pos hti]
                  rfl
            · rw [if_neg hti] at h
              simp [jsGet, objLookup, assocLookup, truthy] at h
  · unfold validateEmbedUrl at h
    rw [if_pos (by simpa using hs)] at h
    simp [jsGet, objLookup, assocLookup, truthy] at h

open JVal in
theorem markInvalid_idem {pd r : JVal} (hobj : isObjLit pd) :
    markInvalid (markInvalid pd r) r = markInvalid pd r := by
  unfold markInvalid
  have l1 : objLookup (objSet (objSet pd "invalid" (.bool true)) "invalidReason" r) "invalid"
      = some (.bool true) := by
    rw [objLookup_objSet_ne _ (by decide)]
    exact objLookup_objSet_self hobj _ _
  have l2 : objLookup (objSet (objSet pd "invalid" (.bool true)) "invalidReason" r)
      "invalidReason" = some r :=
    objLookup_objSet_self (isObjLit_objSet hobj _ _) _ _
  rw [objSet_of_lookup l1, objSet_of_lookup l2]

open JVal in
theorem markInvalid_get_ne {pd r : JVal} {k : String}
    (h1 : k ≠ "invalid") (h2 : k ≠ "invalidReason") :
    jsGet (markInvalid pd r) k = jsGet pd k := by
  unfold markInvalid
  rw [jsGet_objSet_ne _ h2, jsGet_objSet_ne _ h1]

open JVal in
theorem imageValidWrites_get_url {dat pd0 u : JVal} (hobj : isObjLit pd0) :
    jsGet (imageValidWrites dat pd0 u) "url" = u := by
  unfold imageValidWrites
  dsimp only
  rw [jsGet_objSet_ne _ (by decide), jsGet_objSet_ne _ (by decide),
    jsGet_objSet_ne _ (by decide), jsGet_objSet_ne _ (by decide),
    jsGet_objSet_ne _ (by decide)]
  exact jsGet_objSet_self hobj _ _

open JVal in
theorem imageValidWrites_idem {dat pd0 u : JVal} (hobj : isObjLit pd0) :
    imageValidWrites (imageValidWrites dat pd0 u) (imageValidWrites dat pd0 u) u
      = imageValidWrites dat pd0 u := by
  cases pd0 with
  | obj fs =>
    simp only [imageValidWrites, objSet, jsGet, objLookup]
    simp [assocLookup_set, assocSet_eq_self, Option.getD]
  | undef => simp [isObjLit] at hobj
  | null => simp [isObjLit] at hobj
  | bool b => simp [isObjLit] at hobj
  | num n => simp [isObjLit] at hobj
  | str s => simp [isObjLit] at hobj
  | arr xs => simp [isObjLit] at hobj

open JVal in
theorem repairImage_idem {dat pd0 : JVal} (hobj : isObjLit pd0)
    (hget : ∀ k, jsGet pd0 k = jsGet dat k) :
    repairImage (repairImage dat pd0) (repairImage dat pd0) = repairImage dat pd0 := by
  by_cases hu : truthy (jsGet dat "url") = true
  · by_cases hv : truthy (jsGet (validateImageUrl (jsGet dat "url")) "isValid") = true
    · have hP : repairImage dat pd0 = imageValidWrites dat pd0 (jsGet dat "url") := by
        unfold repairImage
        dsimp only
        rw [if_pos hu, if_pos hv]
      rw [hP]
      unfold repairImage
      dsimp only
      rw [imageValidWrites_get_url hobj, if_pos hu, if_pos hv]
      exact imageValidWrites_idem hobj
    · have hP : repairImage dat pd0
          = markInvalid pd0 (jsGet (validateImageUrl (jsGet dat "url")) "message") := by
        unfold repairImage
        dsimp only
        rw [if_pos hu, if_neg hv]
      rw [hP]
      unfold repairImage
      dsimp only
      rw [markInvalid_get_ne (by decide) (by decide), hget "url", if_pos hu, if_neg hv]
      exact markInvalid_idem hobj
  · have hP : repairImage dat pd0 = pd0 := by
      unfold repairImage
      dsimp only
      rw [if_neg hu]
    rw [hP]
    unfold repairImage
    dsimp only
    rw [hget "url", if_neg hu]

namespace JVal

theorem jsGet_obj (l : List (String × JVal)) (k : String) :
    jsGet (.obj l) k = (assocLookup l k).getD undef := rfl

theorem objSet_obj (l : List (String × JVal)) (k : String) (v : JVal) :
    objSet (.obj l) k v = .obj (assocSet l k v) := rfl

end JVal

open JVal in
theorem embedValidWrites_get_url {dat pd0 ev : JVal} (hobj : isObjLit pd0) :
    jsGet (embedValidWrites dat pd0 ev) "url" = jsGet ev "originalUrl" := by
  cases pd0 with
  | obj fs =>
    by_cases hyt : strictEqStr (jsGet ev "service") "youtube" = true <;>
      simp [embedValidWrites, jsSpread, objSet_obj, jsGet_obj, assocLookup_set, hyt]
  | undef => simp [isObjLit] at hobj
  | null => simp [isObjLit] at hobj
  | bool b => simp [isObjLit] at hobj
  | num n => simp [isObjLit] at hobj
  | str s => simp [isObjLit] at hobj
  | arr xs => simp [isObjLit] at hobj

open JVal in
theorem embedValidWrites_idem {dat pd0 ev : JVal} (hobj : isObjLit pd0) :
    embedValidWrites (embedValidWrites dat pd0 ev) (embedValidWrites dat pd0 ev) ev
      = embedValidWrites dat pd0 ev := by
  cases pd0 with
  | obj fs =>
    by_cases hyt : strictEqStr (jsGet ev "service") "youtube" = true <;>
      simp [embedValidWrites, jsSpread, objSet_obj, jsGet_obj, assocLookup_set,
        assocSet_eq_self, jsOr_or_absorb, jsOr_absorb, hyt]
  | undef => simp [isObjLit] at hobj
  | null => simp [isObjLit] at hobj
  | bool b => simp [isObjLit] at hobj
  | num n => simp [isObjLit] at hobj
  | str s => simp [isObjLit] at hobj
  | arr xs => simp [isObjLit] at hobj

open JVal in
theorem repairEmbed_idem {dat pd0 : JVal} (hobj : isObjLit pd0)
    (hget : ∀ k, jsGet pd0 k = jsGet dat k) :
    repairEmbed (repairEmbed dat pd0) (repairEmbed dat pd0) = repairEmbed dat pd0 := by
  by_cases hc : truthy (jsGet dat "url") = true ∨ truthy (jsGet dat "source") = true
  · by_cases hv : truthy (jsGet (validateEmbedUrl
        (jsOr (jsGet dat "url") (jsGet dat "source"))) "isValid") = true
    · obtain ⟨horig, hut, -, -⟩ := validateEmbedUrl_valid hv
      have hP : repairEmbed dat pd0
          = embedValidWrites dat pd0
              (validateEmbedUrl (jsOr (jsGet dat "url") (jsGet dat "source"))) := by
        unfold repairEmbed
        dsimp only
        rw [if_pos hc, if_pos hv]
      rw [hP]
      unfold repairEmbed
      dsimp only
      rw [embedValidWrites_get_url hobj, horig]
      rw [if_pos (Or.inl hut)]
      rw [jsOr_of_truthy _ hut]
      rw [if_pos hv]
      exact embedValidWrites_idem hobj
    · have hP : repairEmbed dat pd0
          = markInvalid pd0 (jsGet (validateEmbedUrl
              (jsOr (jsGet dat "url") (jsGet dat "source"))) "message") := by
        unfold repairEmbed
        dsimp only
        rw [if_pos hc, if_neg hv]
      rw [hP]
      unfold repairEmbed
      dsimp only
      rw [markInvalid_get_ne (by decide) (by decide),
        markInvalid_get_ne (by decide) (by decide),
        hget "url", hget "source", if_pos hc, if_neg hv]
      exact markInvalid_idem hobj
  · have hP : repairEmbed dat pd0 = pd0 := by
      unfold repairEmbed
      dsimp only
      rw [if_neg hc]
    rw [hP]
    unfold repairEmbed
    dsimp only
    rw [hget "url", hget "source", if_neg hc]

theorem repairData_header (dat pd : JVal) : repairData "header" dat pd = repairHeader dat pd := rfl

theorem repairData_list (dat pd : JVal) : repairData "list" dat pd = repairList dat pd := rfl

theorem repairData_image (dat pd : JVal) : repairData "image" dat pd = repairImage dat pd := rfl

theorem repairData_video (dat pd : JVal) : repairData "video" dat pd = repairEmbed dat pd := rfl

theorem repairData_embed (dat pd : JVal) : repairData "embed" dat pd = repairEmbed dat pd := rfl

theorem repairData_code (dat pd : JVal) : repairData "code" dat pd = repairCode dat pd := rfl

theorem repairData_quote (dat pd : JVal) : repairData "quote" dat pd = repairQuote dat pd := rfl

theorem repairData_table (dat pd : JVal) : repairData "table" dat pd = repairTable dat pd := rfl

theorem repairData_warning (dat pd : JVal) :
    repairData "warning" dat pd = repairWarning dat pd := rfl

open JVal in
/-- The output data of any repair case is a fixed point of re-running the
same case with the output as both the read and write sides. -/
theorem repairData_idem (ty : String) (dat pd0 : JVal) (hobj : isObjLit pd0)
    (hget : ∀ k, jsGet pd0 k = jsGet dat k) :
    repairData ty (repairData ty dat pd0) (repairData ty dat pd0) = repairData ty dat pd0 := by
  by_cases h1 : ty = "header"
  · subst h1
    rw [repairData_header, repairData_header]
    exact repairHeader_idem hobj hget
  by_cases h2 : ty = "list"
  · subst h2
    rw [repairData_list, repairData_list]
    exact repairList_idem hobj hget
  by_cases h3 : ty = "image"
  · subst h3
    rw [repairData_image, repairData_image]
    exact repairImage_idem hobj hget
  by_cases h4 : ty = "video"
  · subst h4
    rw [repairData_video, repairData_video]
    exact repairEmbed_idem hobj hget
  by_cases h5 : ty = "embed"
  · subst h5
    rw [repairData_embed, repairData_embed]
    exact repairEmbed_idem hobj hget
  by_cases h6 : ty = "code"
  · subst h6
    rw [repairData_code, repairData_code]
    exact repairCode_idem hobj hget
  by_cases h7 : ty = "quote"
  · subst h7
    rw [repairData_quote, repairData_quote]
    exact repairQuote_idem hobj hget
  by_cases h8 : ty = "table"
  · subst h8
    rw [repairData_table, repairData_table]
    exact repairTable_idem hobj hget
  by_cases h9 : ty = "warning"
  · subst h9
    rw [repairData_warning, repairData_warning]
    exact repairWarning_idem hobj hget
  · have hmem : ty ∉ repairTypes := by
      simp [repairTypes, h1, h2, h3, h4, h5, h6, h7, h8, h9]
    rw [repairData_of_not_mem hmem, repairData_of_not_mem hmem]

open JVal in
theorem blockType_literal (idv d : JVal) (ty : String) (hty : ty ≠ "") :
    blockType (.obj [("id", idv), ("type", .str ty), ("data", d)]) = ty := by
  unfold blockType
  rw [jsGet_block_type]
  rw [if_pos ⟨by simp [truthy, hty], rfl⟩]
  rfl

open JVal in
theorem blockData_literal (idv d : JVal) (ty : String) (hd : isObjLit d) :
    blockData (.obj [("id", idv), ("type", .str ty), ("data", d)]) = d := by
  unfold blockData
  rw [jsGet_block_data]
  rw [if_pos ⟨truthy_of_objLit hd, typeofObject_of_objLit hd⟩]

open JVal in
theorem blockId_literal (g : Nat → String) (j : Nat) (idv d : JVal) (ty : String)
    (hid : truthy idv) :
    blockId g j (.obj [("id", idv), ("type", .str ty), ("data", d)]) = idv := by
  unfold blockId
  rw [jsGet_block_id]
  exact if_pos hid

open JVal in
/-- Every block the cleaning loop keeps is a fixed point of the loop body, at
any position. -/
theorem processBlock_idem {g : Nat → String} {i : Nat} {b pb : JVal}
    (h : processBlock g i b = some pb) (j : Nat) :
    processBlock g j pb = some pb := by
  unfold processBlock at h
  split at h
  · exact absurd h (by simp)
  · rw [Option.some.injEq] at h
    subst h
    have hD : isObjLit (repairData (blockType b) (blockData b) (jsSpread (blockData b))) :=
      repairData_isObjLit _ (isObjLit_spread _)
    unfold processBlock
    rw [if_neg (by simp [truthy, typeofObject])]
    rw [blockType_literal _ _ _ (blockType_ne_empty b),
      blockData_literal _ _ _ hD,
      blockId_literal _ _ _ _ _ (truthy_blockId g i b),
      jsSpread_of_objLit hD,
      repairData_idem (blockType b) (blockData b) (jsSpread (blockData b))
        (isObjLit_spread _) (fun k => jsGet_spread _ k)]

open JVal in
theorem cleanBlocksGo_fixed {g : Nat → String} (bs : List JVal)
    (hmem : ∀ pb ∈ bs, ∀ j, processBlock g j pb = some pb) :
    ∀ i, cleanBlocksGo g i bs = bs := by
  induction bs with
  | nil => intro _; rfl
  | cons b t ih =>
    intro i
    unfold cleanBlocksGo
    rw [hmem b (List.mem_cons_self _ _) i,
      ih (fun pb hpb => hmem pb (List.mem_cons_of_mem _ hpb)) (i + 1)]

open JVal in
/-- Any document whose `time`/`version` absorb their defaults and whose
blocks are loop fixed points is itself a fixed point of `sanitize`. -/
theorem sanitize_doc_fixed (now : Int) (g : Nat → String) (T V : JVal) (cbs : List JVal)
    (hT : jsOr T (.num now) = T) (hV : jsOr V (.str "2.28.2") = V)
    (hbs : ∀ pb ∈ cbs, ∀ j, processBlock g j pb = some pb) :
    sanitizeContent now g (.obj [("time", T), ("blocks", .arr cbs), ("version", V)])
      = .obj [("time", T), ("blocks", .arr cbs), ("version", V)] := by
  unfold sanitizeContent validateAndCleanLessonContent
  rw [if_neg (by simp [truthy, typeofObject])]
  dsimp only
  rw [jsGet_doc_blocks]
  rw [if_neg (by simp [truthy, isArr])]
  dsimp only
  rw [jsGet_doc_time, jsGet_doc_version, hT, hV, cleanBlocksGo_fixed cbs hbs 0]

open JVal in
/-- C1: `sanitize` is idempotent — for every input `x` (including `null`, the
empty object, and an object whose `blocks` is not an array),
`sanitize (sanitize x) = sanitize x`, with the current time `now` and the
generated block-id suffixes `g` fixed as parameters of the embedding. -/
theorem sanitizeContent_idempotent (now : Int) (g : Nat → String) (x : JVal) :
    sanitizeContent now g (sanitizeContent now g x) = sanitizeContent now g x := by
  by_cases h1 : truthy x = true ∧ typeofObject x = true
  · by_cases h2 : truthy (jsGet x "blocks") = true ∧ isArr (jsGet x "blocks") = true
    · obtain ⟨hbt, hba⟩ := h2
      cases hx2 : jsGet x "blocks" with
      | arr xs =>
        have hx : sanitizeContent now g x
            = .obj [("time", jsOr (jsGet x "time") (.num now)),
                    ("blocks", .arr (cleanBlocksGo g 0 xs)),
                    ("version", jsOr (jsGet x "version") (.str "2.28.2"))] := by
          unfold sanitizeContent validateAndCleanLessonContent
          rw [if_neg (by simp [h1.1, h1.2])]
          dsimp only
          rw [hx2]
          rw [if_neg (by simp [truthy, isArr])]
        rw [hx]
        refine sanitize_doc_fixed now g _ _ _ (jsOr_absorb _ _) (jsOr_absorb _ _) ?_
        intro pb hpb j
        obtain ⟨j', b, _, hj⟩ := mem_cleanBlocksGo hpb
        exact processBlock_idem hj j
      | undef => rw [hx2] at hba; exact absurd hba (by simp [isArr])
      | null => rw [hx2] at hba; exact absurd hba (by simp [isArr])
      | bool c => rw [hx2] at hba; exact absurd hba (by simp [isArr])
      | num n => rw [hx2] at hba; exact absurd hba (by simp [isArr])
      | str s => rw [hx2] at hba; exact absurd hba (by simp [isArr])
      | obj fs => rw [hx2] at hba; exact absurd hba (by simp [isArr])
    · have hx : sanitizeContent now g x
          = .obj [("time", jsOr (jsGet x "time") (.num now)), ("blocks", .arr []),
                  ("version", jsOr (jsGet x "version") (.str "2.28.2"))] := by
        unfold sanitizeContent validateAndCleanLessonContent
        rw [if_neg (by simp [h1.1, h1.2])]
        dsimp only
        rw [if_pos (by simpa using h2)]
      rw [hx]
      exact sanitize_doc_fixed now g _ _ [] (jsOr_absorb _ _) (jsOr_absorb _ _)
        (by intro pb hpb; simp at hpb)
  · have hx : sanitizeContent now g x
        = .obj [("time", .num now), ("blocks", .arr []), ("version", .str "2.28.2")] := by
      unfold sanitizeContent validateAndCleanLessonContent
      rw [if_pos (by simpa using h1)]
    rw [hx]
    exact sanitize_doc_fixed now g _ _ [] (jsOr_self _) (jsOr_self _)
      (by intro pb hpb; simp at hpb)

end CodeCraft
